import Mathlib

/-!
# Verification of the OpenPose `Wrapper` pipeline builder

Shallow embedding of `include/openpose/wrapper/wrapper.hpp` (template class
`op::Wrapper`).  Worker objects (`TWorker`, i.e. `std::shared_ptr` values) are
modelled by the inductive label type `Worker`; the member state of the class is
the structure `WrapperState`; `error(...)` calls (which throw) are modelled via
`Except ConfigError`.  Thread ids are `unsigned int` values, modelled as `Nat`
taken modulo `2 ^ 32`; queue ids are `unsigned long long` counters that are only
ever incremented a handful of times from 0, modelled as plain `Nat`.
-/

deriving instance DecidableEq for Except

namespace Op

/-- Modulus of C++ `unsigned int` (32-bit), the type of `mThreadId`. -/
def UM : Nat := 4294967296

/-- `op::ThreadManagerMode` (from `thread/headers.hpp`), as used by
`wrapper.hpp`: the four synchronization modes. -/
inductive ThreadManagerMode
  | Asynchronous
  | AsynchronousIn
  | AsynchronousOut
  | Synchronous
deriving DecidableEq, Repr

/-- Labels for the worker objects (`TWorker`, a `std::shared_ptr`) that
`wrapper.hpp` stores or creates.  Distinct constructors model distinct
`std::make_shared` allocations; user-supplied workers carry an index. -/
inductive Worker
  | wIdGenerator
  | wCvMatToOpInput
  | wCvMatToOpOutput
  | wDatumProd
  | userInput (k : Nat)
  | userPostProcessing (k : Nat)
  | userOutput (k : Nat)
  | wQueueOrderer
  | wOpOutputToCvMat
  | wKeyPointScaler
  | wPoseExtractor (gpuId : Nat)
  | wFaceExtractor (gpuId : Nat)
  | wHandExtractor (gpuId : Nat)
  | wPoseRenderer (gpuId : Nat)
  | wFaceRenderer (gpuId : Nat)
  | wHandRenderer (gpuId : Nat)
  | wPoseSaver
  | wPoseJsonSaver
  | wPoseJsonCocoSaver
  | wImageSaver
  | wVideoSaver
  | wHeatMapSaver
  | wGuiInfoAdder
  | wGui
deriving DecidableEq, Repr

/-- The `ConfigurationError`s that `wrapper.hpp` itself raises via `error(...)`,
one label per distinct `error` call site relevant to the wrapper's control
flow. -/
inductive ConfigError
  | notConfigured        -- "Configure the Wrapper class before calling start()."
  | producerCount        -- "You need to have 1 and only 1 producer selected."
  | noOutputSelected     -- "No output selected."
  | noInputSelected      -- "No input selected."
  | nullWorker           -- "Your worker is a nullptr."
  | emplaceWithInputWorker  -- "Emplace cannot be called if an input worker was already selected."
  | pushWithInputWorker     -- "Push cannot be called if an input worker was already selected."
  | popWithOutputWorker     -- "Pop cannot be called if an output worker was already selected."
deriving DecidableEq, Repr

/-- One call `mThreadManager.add(threadId, workers, queueIn, queueOut)` issued
by `configureThreadManager` (the single-worker overload is modelled as a
one-element list). -/
structure AddCall where
  threadId : Nat
  workers : List Worker
  queueIn : Nat
  queueOut : Nat
deriving DecidableEq, Repr

/-- The member state of `op::Wrapper` (wrapper.hpp lines 196-217) that the
modelled member functions read or write.  `std::shared_ptr` members are
`Option Worker` (`none` = `nullptr`), `std::vector<TWorker>` members are
`List Worker`. -/
structure WrapperState where
  mThreadManagerMode : ThreadManagerMode
  mGpuNumber : Int
  mUserInputWsOnNewThread : Bool
  mUserPostProcessingWsOnNewThread : Bool
  mUserOutputWsOnNewThread : Bool
  mThreadId : Nat
  mMultiThreadEnabled : Bool
  mUserInputWs : List Worker
  wDatumProducer : Option Worker
  spWIdGenerator : Option Worker
  spWCvMatToOpInput : Option Worker
  spWCvMatToOpOutput : Option Worker
  spWPoses : List (List Worker)
  mPostProcessingWs : List Worker
  mUserPostProcessingWs : List Worker
  mOutputWs : List Worker
  spWGui : Option Worker
  mUserOutputWs : List Worker
deriving DecidableEq, Repr

/-- `Wrapper::disableMultiThreading` (lines 305-316): sets
`mMultiThreadEnabled = false`. -/
def disableMultiThreading (s : WrapperState) : WrapperState :=
  { s with mMultiThreadEnabled := false }

/-- `Wrapper::threadIdPP` (lines 1031-1044): `if (mMultiThreadEnabled)
mThreadId++; return mThreadId;` with `mThreadId : unsigned int`.  Returns the
(possibly updated) thread id and the updated state. -/
def threadIdPP (s : WrapperState) : Nat × WrapperState :=
  if s.mMultiThreadEnabled then
    let t := (s.mThreadId + 1) % UM
    (t, { s with mThreadId := t })
  else
    (s.mThreadId, s)

/-- The action of `threadIdPP` on the thread-id counter alone, used while
tracing `configureThreadManager`: increment modulo `2 ^ 32` when
multi-threading is enabled, identity otherwise. -/
def tpp (mt : Bool) (t : Nat) : Nat :=
  if mt then (t + 1) % UM else t

/-- `Wrapper::mergeWorkers` (lines 1046-1061): copies `workersA` and appends
each element of `workersB`, i.e. list append. -/
def mergeWorkers (workersA workersB : List Worker) : List Worker :=
  workersA ++ workersB

/-- `Wrapper::setWorkerInput` (lines 318-333).  Note the order of operations in
the source: `mUserInputWs.clear()` runs before the null check, so a null
`worker` leaves the slot cleared.  Returns the new state and the raised error,
if any. -/
def setWorkerInput (s : WrapperState) (worker : Option Worker)
    (workerOnNewThread : Bool) : WrapperState × Option ConfigError :=
  let s1 := { s with mUserInputWs := [] }
  match worker with
  | none => (s1, some ConfigError.nullWorker)
  | some w =>
    ({ s1 with mUserInputWs := [w], mUserInputWsOnNewThread := workerOnNewThread }, none)

/-- `Wrapper::setWorkerPostProcessing` (lines 335-350): same shape as
`setWorkerInput` on the `mUserPostProcessingWs` slot. -/
def setWorkerPostProcessing (s : WrapperState) (worker : Option Worker)
    (workerOnNewThread : Bool) : WrapperState × Option ConfigError :=
  let s1 := { s with mUserPostProcessingWs := [] }
  match worker with
  | none => (s1, some ConfigError.nullWorker)
  | some w =>
    ({ s1 with mUserPostProcessingWs := [w],
               mUserPostProcessingWsOnNewThread := workerOnNewThread }, none)

/-- `Wrapper::setWorkerOutput` (lines 352-367): same shape as `setWorkerInput`
on the `mUserOutputWs` slot. -/
def setWorkerOutput (s : WrapperState) (worker : Option Worker)
    (workerOnNewThread : Bool) : WrapperState × Option ConfigError :=
  let s1 := { s with mUserOutputWs := [] }
  match worker with
  | none => (s1, some ConfigError.nullWorker)
  | some w =>
    ({ s1 with mUserOutputWs := [w], mUserOutputWsOnNewThread := workerOnNewThread }, none)

/-- `Wrapper::tryEmplace` (lines 779-793): errors iff a user input worker is
selected, otherwise forwards to `mThreadManager.tryEmplace` (external), which
we model as `.ok ()`. -/
def tryEmplace (s : WrapperState) : Except ConfigError Unit :=
  if s.mUserInputWs ≠ [] then .error ConfigError.emplaceWithInputWorker else .ok ()

/-- `Wrapper::waitAndEmplace` (lines 795-809): same check as `tryEmplace`,
forwards to `mThreadManager.waitAndEmplace`. -/
def waitAndEmplace (s : WrapperState) : Except ConfigError Unit :=
  if s.mUserInputWs ≠ [] then .error ConfigError.emplaceWithInputWorker else .ok ()

/-- `Wrapper::tryPush` (lines 811-825): errors iff a user input worker is
selected, otherwise forwards to `mThreadManager.tryPush`. -/
def tryPush (s : WrapperState) : Except ConfigError Unit :=
  if s.mUserInputWs ≠ [] then .error ConfigError.pushWithInputWorker else .ok ()

/-- `Wrapper::waitAndPush` (lines 827-841): same check as `tryPush`. -/
def waitAndPush (s : WrapperState) : Except ConfigError Unit :=
  if s.mUserInputWs ≠ [] then .error ConfigError.pushWithInputWorker else .ok ()

/-- `Wrapper::tryPop` (lines 843-857): errors iff a user output worker is
selected, otherwise forwards to `mThreadManager.tryPop`. -/
def tryPop (s : WrapperState) : Except ConfigError Unit :=
  if s.mUserOutputWs ≠ [] then .error ConfigError.popWithOutputWorker else .ok ()

/-- `Wrapper::waitAndPop` (lines 859-873): same check as `tryPop`. -/
def waitAndPop (s : WrapperState) : Except ConfigError Unit :=
  if s.mUserOutputWs ≠ [] then .error ConfigError.popWithOutputWorker else .ok ()

/-- `Wrapper::reset` (lines 875-898): resets the thread manager (external),
sets `mThreadId = 0` and clears the listed worker members.  Note that the
source does **not** clear `spWIdGenerator`. -/
def reset (s : WrapperState) : WrapperState :=
  { s with
    mThreadId := 0
    mUserInputWs := []
    wDatumProducer := none
    spWCvMatToOpInput := none
    spWCvMatToOpOutput := none
    spWPoses := []
    mPostProcessingWs := []
    mUserPostProcessingWs := []
    mOutputWs := []
    spWGui := none
    mUserOutputWs := [] }

/-- The `workersAux` ingress selection of `configureThreadManager` lines
941-950: the user input workers if present, else the internal datum producer,
else an error outside asynchronous-ingress modes (and no ingress worker in
those modes). -/
def ingressSelect (userIn : List Worker) (producer : Option Worker)
    (mode : ThreadManagerMode) : Except ConfigError (List Worker) :=
  if userIn ≠ [] then .ok userIn
  else match producer with
    | some p => .ok [p]
    | none =>
      if mode ≠ ThreadManagerMode.Asynchronous
          ∧ mode ≠ ThreadManagerMode.AsynchronousIn then
        .error ConfigError.noInputSelected
      else
        .ok []

/-- `configureThreadManager` lines 930-955 (the ingress stage or stages, up to
and including the `threadIdPP()` call at line 955).  Starts from
`mThreadId = 0`, `queueIn = 0`, `queueOut = 1`; returns the issued add calls
and the resulting `(threadId, queueIn, queueOut)`. -/
def ingressPhase (userIn : List Worker) (userInNewThread : Bool)
    (producer : Option Worker) (mode : ThreadManagerMode) (mt : Bool)
    (wIdGen wCvIn wCvOut : Worker) :
    Except ConfigError (List AddCall × Nat × Nat × Nat) :=
  if userIn ≠ [] ∧ userInNewThread then
    -- add(mThreadId, mUserInputWs, 0, 1); threadIdPP();
    -- add(mThreadId, {spWIdGenerator, spWCvMatToOpInput, spWCvMatToOpOutput}, 1, 2); threadIdPP();
    let t1 := tpp mt 0
    .ok ([⟨0, userIn, 0, 1⟩, ⟨t1, [wIdGen, wCvIn, wCvOut], 1, 2⟩], tpp mt t1, 2, 3)
  else
    (ingressSelect userIn producer mode).map fun ingressWs =>
      ([⟨0, mergeWorkers ingressWs [wIdGen, wCvIn, wCvOut], 0, 1⟩], tpp mt 0, 1, 2)

/-- The loop at lines 961-965: one `mThreadManager.add(mThreadId, wPose,
queueIn, queueOut)` per pose replica, with `threadIdPP()` (in this branch
multi-threading is enabled) after each.  Returns the add calls and the final
thread id. -/
def poseReplicaAdds (wPoses : List (List Worker)) (t q qo : Nat) :
    List AddCall × Nat :=
  match wPoses with
  | [] => ([], t)
  | w :: rest =>
    let next := poseReplicaAdds rest (tpp true t) q qo
    (⟨t, w, q, qo⟩ :: next.1, next.2)

/-- `configureThreadManager` lines 956-974 (pose estimation and rendering):
all replicas in multi-threaded mode, only `spWPoses.at(0)` otherwise; the
queue pair is shared by all replicas and bumped once afterwards. -/
def posePhase (wPoses : List (List Worker)) (mt : Bool) (t q qo : Nat) :
    List AddCall × Nat × Nat × Nat :=
  if wPoses = [] then ([], t, q, qo)
  else if mt then
    let r := poseReplicaAdds wPoses t q qo
    (r.1, r.2, q + 1, qo + 1)
  else
    ([⟨t, wPoses.headI, q, qo⟩], t, q + 1, qo + 1)

/-- `configureThreadManager` lines 975-1005 (post-processing, user
post-processing and output workers).  The source's sequential
`add`/`threadIdPP()`/`queueIn++`/`queueOut++` statements are written out path
by path: on the user-post-processing-on-new-thread branch the optional
`mPostProcessingWs` stage, the `mUserPostProcessingWs` stage and the optional
`mOutputWs` stage each get their own thread id and queue pair; otherwise the
three lists are merged into a single optional stage. -/
def postPhase (postWs userPostWs outWs : List Worker)
    (userPostNewThread mt : Bool) (t q qo : Nat) :
    List AddCall × Nat × Nat × Nat :=
  if userPostWs ≠ [] ∧ userPostNewThread then
    if postWs ≠ [] then
      if outWs ≠ [] then
        ([⟨t, postWs, q, qo⟩, ⟨tpp mt t, userPostWs, q + 1, qo + 1⟩,
          ⟨tpp mt (tpp mt t), outWs, q + 2, qo + 2⟩],
         tpp mt (tpp mt (tpp mt t)), q + 3, qo + 3)
      else
        ([⟨t, postWs, q, qo⟩, ⟨tpp mt t, userPostWs, q + 1, qo + 1⟩],
         tpp mt (tpp mt t), q + 2, qo + 2)
    else
      if outWs ≠ [] then
        ([⟨t, userPostWs, q, qo⟩, ⟨tpp mt t, outWs, q + 1, qo + 1⟩],
         tpp mt (tpp mt t), q + 2, qo + 2)
      else
        ([⟨t, userPostWs, q, qo⟩], tpp mt t, q + 1, qo + 1)
  else
    if mergeWorkers (mergeWorkers postWs userPostWs) outWs ≠ [] then
      ([⟨t, mergeWorkers (mergeWorkers postWs userPostWs) outWs, q, qo⟩],
       tpp mt t, q + 1, qo + 1)
    else ([], t, q, qo)

/-- `configureThreadManager` lines 1006-1016 (user output worker).  On the
same-thread branch the source passes `mThreadId - 1` in `unsigned int`
arithmetic, i.e. `(t + 2^32 - 1) % 2^32`, and performs no `threadIdPP()`. -/
def userOutputPhase (userOutWs : List Worker) (userOutNewThread mt : Bool)
    (t q qo : Nat) : List AddCall × Nat × Nat × Nat :=
  if userOutWs ≠ [] then
    if userOutNewThread then
      ([⟨t, userOutWs, q, qo⟩], tpp mt t, q + 1, qo + 1)
    else
      ([⟨(t + (UM - 1)) % UM, userOutWs, q, qo⟩], t, q + 1, qo + 1)
  else ([], t, q, qo)

/-- `configureThreadManager` lines 1017-1022 (the GUI worker, a single
`TWorker` added on its own). -/
def guiPhase (gui : Option Worker) (mt : Bool) (t q qo : Nat) :
    List AddCall × Nat × Nat × Nat :=
  match gui with
  | some g => ([⟨t, [g], q, qo⟩], tpp mt t, q + 1, qo + 1)
  | none => ([], t, q, qo)

/-- Phases of `configureThreadManager` after the ingress stage(s): pose,
post-processing, user output and GUI, chained on the running
`(threadId, queueIn, queueOut)` counters.  Returns all add calls of these
phases and the final thread id. -/
def phasesAfterIngress (s : WrapperState) (t q qo : Nat) : List AddCall × Nat :=
  let p2 := posePhase s.spWPoses s.mMultiThreadEnabled t q qo
  let p3 := postPhase s.mPostProcessingWs s.mUserPostProcessingWs s.mOutputWs
    s.mUserPostProcessingWsOnNewThread s.mMultiThreadEnabled p2.2.1 p2.2.2.1 p2.2.2.2
  let p4 := userOutputPhase s.mUserOutputWs s.mUserOutputWsOnNewThread
    s.mMultiThreadEnabled p3.2.1 p3.2.2.1 p3.2.2.2
  let p5 := guiPhase s.spWGui s.mMultiThreadEnabled p4.2.1 p4.2.2.1 p4.2.2.2
  (p2.1 ++ p3.1 ++ p4.1 ++ p5.1, p5.2.1)

/-- `Wrapper::configureThreadManager` (lines 900-1029): the two security
checks, the producer mutual-exclusion check, the output check, then the graph
construction (`mThreadManager.reset(); mThreadId = 0; queueIn = 0;
queueOut = 1; spWIdGenerator = make_shared<WIdGenerator>;` followed by the
phases).  On success, returns the sequence of `mThreadManager.add` calls and
the updated member state. -/
def configureThreadManager (s : WrapperState) :
    Except ConfigError (List AddCall × WrapperState) :=
  match s.spWCvMatToOpInput, s.spWCvMatToOpOutput with
  | some wCvIn, some wCvOut =>
    if (s.wDatumProducer.isNone = s.mUserInputWs.isEmpty)
        ∧ s.mThreadManagerMode ≠ ThreadManagerMode.Asynchronous
        ∧ s.mThreadManagerMode ≠ ThreadManagerMode.AsynchronousIn then
      .error ConfigError.producerCount
    else if s.mOutputWs = [] ∧ s.mUserOutputWs = [] ∧ s.spWGui = none
        ∧ s.mThreadManagerMode ≠ ThreadManagerMode.Asynchronous
        ∧ s.mThreadManagerMode ≠ ThreadManagerMode.AsynchronousOut then
      .error ConfigError.noOutputSelected
    else
      (ingressPhase s.mUserInputWs s.mUserInputWsOnNewThread s.wDatumProducer
          s.mThreadManagerMode s.mMultiThreadEnabled
          Worker.wIdGenerator wCvIn wCvOut).map fun r =>
        (r.1 ++ (phasesAfterIngress s r.2.1 r.2.2.1 r.2.2.2).1,
         { s with mThreadId := (phasesAfterIngress s r.2.1 r.2.2.1 r.2.2.2).2,
                  spWIdGenerator := some Worker.wIdGenerator })
  | _, _ => .error ConfigError.notConfigured

/-- The trace of `mThreadManager.add` calls issued by a successful
`configureThreadManager`, without the final member state. -/
def ctmTrace (s : WrapperState) : Except ConfigError (List AddCall) :=
  (configureThreadManager s).map Prod.fst

/-- Number of producers configured to feed the first queue: the internal datum
producer (`wDatumProducer`) and the user input worker slot (`mUserInputWs`). -/
def numProducers (s : WrapperState) : Nat :=
  (if s.wDatumProducer.isSome then 1 else 0) + (if s.mUserInputWs ≠ [] then 1 else 0)

/-- Number of consumers configured to drain the last queue: internal output
workers (`mOutputWs`), the user output worker slot (`mUserOutputWs`) and the
GUI sink (`spWGui`). -/
def numConsumers (s : WrapperState) : Nat :=
  (if s.mOutputWs ≠ [] then 1 else 0) + (if s.mUserOutputWs ≠ [] then 1 else 0)
    + (if s.spWGui.isSome then 1 else 0)

/-- `op::ScaleMode` values referenced by `configure` (lines 440, 648-650). -/
inductive ScaleModeM
  | InputResolution
  | NetOutputResolution
  | OutputResolution
  | ZeroToOne
  | PlusMinusOne
  | UnsignedChar
deriving DecidableEq, Repr

/-- `cv::Size`-style resolution value used by `configure`. -/
structure SizeM where
  width : Int
  height : Int
deriving DecidableEq, Repr

/-- `Wrapper::configure`, lines 533-634: construction of the parallel pose
worker replicas `spWPoses`.  One replica per `gpuId` in
`[0, wrapperStructPose.gpuNumber)` (an `int`, so `gpuNumber.toNat` replicas);
each replica starts with its `WPoseExtractor` and is extended by the optional
face/hand extractors and the pose/hand/face renderers.  The pose renderers are
appended when `poseRenderers` is non-empty, which inside the per-replica loop
is equivalent to `renderOutput` (the renderer loop at lines 544-554 runs over
`poseExtractors`). -/
def spWPosesBuild (gpuNumber : Int) (extractFace extractHands renderOutput : Bool) :
    List (List Worker) :=
  (List.range gpuNumber.toNat).map (fun i =>
    [Worker.wPoseExtractor i]
    ++ (if extractFace then [Worker.wFaceExtractor i] else [])
    ++ (if extractHands then [Worker.wHandExtractor i] else [])
    ++ (if renderOutput then [Worker.wPoseRenderer i] else [])
    ++ (if extractHands then [Worker.wHandRenderer i] else [])
    ++ (if extractFace then [Worker.wFaceRenderer i] else []))

/-- The re-scaling condition of `configure`, lines 648-650. -/
def keyPointScalerCondition (poseScaleMode : ScaleModeM)
    (finalOutputSize producerSize netOutputSize : SizeM) : Bool :=
  decide (poseScaleMode ≠ ScaleModeM.OutputResolution)
  && (decide (poseScaleMode ≠ ScaleModeM.InputResolution)
      || decide (finalOutputSize ≠ producerSize))
  && (decide (poseScaleMode ≠ ScaleModeM.NetOutputResolution)
      || decide (finalOutputSize ≠ netOutputSize))

/-- `Wrapper::configure`, lines 636-654: construction of `mPostProcessingWs`.
The `WQueueOrderer` is pushed first, exactly when `spWPoses.size() > 1`,
followed by the optional `WOpOutputToCvMat` and `WKeyPointScaler`. -/
def mPostProcessingWsBuild (wPoses : List (List Worker))
    (renderOutput scalerCond : Bool) : List Worker :=
  (if wPoses.length > 1 then [Worker.wQueueOrderer] else [])
  ++ (if renderOutput then [Worker.wOpOutputToCvMat] else [])
  ++ (if scalerCond then [Worker.wKeyPointScaler] else [])

/-- Whether an `Except` result is a success. -/
def isOkB {ε α : Type} : Except ε α → Bool
  | .ok _ => true
  | .error _ => false

/-- Boolean check that a list of thread ids is non-decreasing. -/
def threadIdsSorted : List Nat → Bool
  | [] => true
  | [_] => true
  | a :: b :: r => decide (a ≤ b) && threadIdsSorted (b :: r)

/-- Boolean check that every add call in a trace carries thread id 0. -/
def allThreadIdsZero (tr : List AddCall) : Bool :=
  tr.all (fun a => a.threadId == 0)

/-- Example wrapper state: internal datum producer, one pose replica
(`gpuNumber = 1`), rendering post-processing and an image-saver output worker,
synchronous mode, multi-threading enabled. -/
def sBase : WrapperState :=
  { mThreadManagerMode := ThreadManagerMode.Synchronous
    mGpuNumber := 1
    mUserInputWsOnNewThread := true
    mUserPostProcessingWsOnNewThread := true
    mUserOutputWsOnNewThread := true
    mThreadId := 0
    mMultiThreadEnabled := true
    mUserInputWs := []
    wDatumProducer := some Worker.wDatumProd
    spWIdGenerator := none
    spWCvMatToOpInput := some Worker.wCvMatToOpInput
    spWCvMatToOpOutput := some Worker.wCvMatToOpOutput
    spWPoses := [[Worker.wPoseExtractor 0]]
    mPostProcessingWs := [Worker.wOpOutputToCvMat]
    mUserPostProcessingWs := []
    mOutputWs := [Worker.wImageSaver]
    spWGui := none
    mUserOutputWs := [] }

/-- Example wrapper state: `sBase` after `disableMultiThreading()`, with a
user output worker configured via `setWorkerOutput(w, false)` (same-thread
placement) and the GUI enabled. -/
def sSingle : WrapperState :=
  { sBase with
    mMultiThreadEnabled := false
    mUserOutputWs := [Worker.userOutput 0]
    mUserOutputWsOnNewThread := false
    spWGui := some Worker.wGui }

/-- Example wrapper state: `sBase` with the GUI sink additionally enabled, so
two consumers (internal output workers and GUI) drain the last queue. -/
def sC3 : WrapperState :=
  { sBase with spWGui := some Worker.wGui }

/-- The trace of add calls that `configureThreadManager` issues on `sBase`. -/
def trBase : List AddCall :=
  [⟨0, [Worker.wDatumProd, Worker.wIdGenerator, Worker.wCvMatToOpInput,
      Worker.wCvMatToOpOutput], 0, 1⟩,
   ⟨1, [Worker.wPoseExtractor 0], 1, 2⟩,
   ⟨2, [Worker.wOpOutputToCvMat, Worker.wImageSaver], 2, 3⟩]

/-- The member state after `configureThreadManager` on `sBase`. -/
def sBaseAfter : WrapperState :=
  { sBase with mThreadId := 3, spWIdGenerator := some Worker.wIdGenerator }

/-- The trace of add calls that `configureThreadManager` issues on `sSingle`:
note the wrapped thread id of the user output stage. -/
def trSingle : List AddCall :=
  [⟨0, [Worker.wDatumProd, Worker.wIdGenerator, Worker.wCvMatToOpInput,
      Worker.wCvMatToOpOutput], 0, 1⟩,
   ⟨0, [Worker.wPoseExtractor 0], 1, 2⟩,
   ⟨0, [Worker.wOpOutputToCvMat, Worker.wImageSaver], 2, 3⟩,
   ⟨4294967295, [Worker.userOutput 0], 3, 4⟩,
   ⟨0, [Worker.wGui], 4, 5⟩]

/-- The member state after `configureThreadManager` on `sSingle`. -/
def sSingleAfter : WrapperState :=
  { sSingle with mThreadId := 0, spWIdGenerator := some Worker.wIdGenerator }

/-- Freshness of the `WIdGenerator` allocation: in the C++ source,
`spWIdGenerator = std::make_shared<WIdGenerator>(...)` creates a worker object
distinct from every worker stored in the other members.  In the label model
this is the requirement that no other member contains the `wIdGenerator`
label. -/
def WellFormedWorkers (s : WrapperState) : Prop :=
  Worker.wIdGenerator ∉ s.mUserInputWs
  ∧ s.wDatumProducer ≠ some Worker.wIdGenerator
  ∧ s.spWCvMatToOpInput ≠ some Worker.wIdGenerator
  ∧ s.spWCvMatToOpOutput ≠ some Worker.wIdGenerator
  ∧ (∀ l ∈ s.spWPoses, Worker.wIdGenerator ∉ l)
  ∧ Worker.wIdGenerator ∉ s.mPostProcessingWs
  ∧ Worker.wIdGenerator ∉ s.mUserPostProcessingWs
  ∧ Worker.wIdGenerator ∉ s.mOutputWs
  ∧ s.spWGui ≠ some Worker.wIdGenerator
  ∧ Worker.wIdGenerator ∉ s.mUserOutputWs

instance (s : WrapperState) : Decidable (WellFormedWorkers s) := by
  unfold WellFormedWorkers
  infer_instance

/-- C1 (counterexample): with the internal datum producer configured and no
user input worker, `tryEmplace` succeeds instead of raising a
ConfigurationError, and with internal output workers configured and no user
output worker, `tryPop` succeeds as well — the claimed mutual exclusion
against internal producers/consumers is not checked. -/
theorem tryEmplace_internal_producer_no_error :
    sBase.wDatumProducer ≠ none ∧ sBase.mUserInputWs = []
    ∧ tryEmplace sBase = Except.ok ()
    ∧ sBase.mOutputWs ≠ [] ∧ sBase.mUserOutputWs = []
    ∧ tryPop sBase = Except.ok () := by
  decide

/-- C1 (amended): each of the six boundary operations checks, at call time on
every call, only the user-supplied worker slot — `mUserInputWs` for the four
ingress operations and `mUserOutputWs` for the two egress operations — raising
a ConfigurationError (and not forwarding the item) exactly when that slot is
non-empty; a configured internal producer, internal output workers or GUI sink
do not trigger the error. -/
theorem boundary_ops_check_user_worker_slots (s : WrapperState) :
    (tryEmplace s = Except.error ConfigError.emplaceWithInputWorker ↔ s.mUserInputWs ≠ [])
    ∧ (waitAndEmplace s = Except.error ConfigError.emplaceWithInputWorker ↔ s.mUserInputWs ≠ [])
    ∧ (tryPush s = Except.error ConfigError.pushWithInputWorker ↔ s.mUserInputWs ≠ [])
    ∧ (waitAndPush s = Except.error ConfigError.pushWithInputWorker ↔ s.mUserInputWs ≠ [])
    ∧ (tryPop s = Except.error ConfigError.popWithOutputWorker ↔ s.mUserOutputWs ≠ [])
    ∧ (waitAndPop s = Except.error ConfigError.popWithOutputWorker ↔ s.mUserOutputWs ≠ [])
    ∧ (tryEmplace s = Except.ok () ↔ s.mUserInputWs = [])
    ∧ (waitAndEmplace s = Except.ok () ↔ s.mUserInputWs = [])
    ∧ (tryPush s = Except.ok () ↔ s.mUserInputWs = [])
    ∧ (waitAndPush s = Except.ok () ↔ s.mUserInputWs = [])
    ∧ (tryPop s = Except.ok () ↔ s.mUserOutputWs = [])
    ∧ (waitAndPop s = Except.ok () ↔ s.mUserOutputWs = []) := by
  unfold tryEmplace waitAndEmplace tryPush waitAndPush tryPop waitAndPop
  by_cases h1 : s.mUserInputWs = [] <;> by_cases h2 : s.mUserOutputWs = [] <;>
    simp [h1, h2]

/-- C9: calling `setWorkerInput`, `setWorkerPostProcessing` or
`setWorkerOutput` with a null worker raises the error, but the corresponding
slot has already been cleared before the validation runs, so after the failed
call the slot is empty (for every prior state, including states where the slot
was non-empty). -/
theorem setWorker_null_clears_slot_before_error (s : WrapperState) (b : Bool) :
    (setWorkerInput s none b).2 = some ConfigError.nullWorker
    ∧ (setWorkerInput s none b).1.mUserInputWs = []
    ∧ (setWorkerPostProcessing s none b).2 = some ConfigError.nullWorker
    ∧ (setWorkerPostProcessing s none b).1.mUserPostProcessingWs = []
    ∧ (setWorkerOutput s none b).2 = some ConfigError.nullWorker
    ∧ (setWorkerOutput s none b).1.mUserOutputWs = [] := by
  simp [setWorkerInput, setWorkerPostProcessing, setWorkerOutput]

/-- C8 (counterexample): after a successful `configureThreadManager` (which
installs the fresh id generator), `reset()` leaves `spWIdGenerator` non-null —
so not every configured worker field is cleared. -/
theorem reset_keeps_spWIdGenerator :
    (configureThreadManager sBase).map (fun p => (reset p.2).spWIdGenerator)
      = Except.ok (some Worker.wIdGenerator)
    ∧ some Worker.wIdGenerator ≠ (none : Option Worker) := by
  decide

/-- C8 (amended): after every `reset()` call, `mThreadId = 0` and every
configured worker field is cleared **except** `spWIdGenerator`, which is left
unchanged (it is only overwritten by the next `configureThreadManager`); all
remaining members (mode, flags, gpu number) are preserved, so the wrapper can
be configured and started again. -/
theorem reset_clears_workers_except_idGenerator (s : WrapperState) :
    (reset s).mThreadId = 0
    ∧ (reset s).mUserInputWs = []
    ∧ (reset s).wDatumProducer = none
    ∧ (reset s).spWCvMatToOpInput = none
    ∧ (reset s).spWCvMatToOpOutput = none
    ∧ (reset s).spWPoses = []
    ∧ (reset s).mPostProcessingWs = []
    ∧ (reset s).mUserPostProcessingWs = []
    ∧ (reset s).mOutputWs = []
    ∧ (reset s).spWGui = none
    ∧ (reset s).mUserOutputWs = []
    ∧ (reset s).spWIdGenerator = s.spWIdGenerator
    ∧ (reset s).mThreadManagerMode = s.mThreadManagerMode
    ∧ (reset s).mMultiThreadEnabled = s.mMultiThreadEnabled
    ∧ (reset s).mGpuNumber = s.mGpuNumber
    ∧ (reset s).mUserInputWsOnNewThread = s.mUserInputWsOnNewThread
    ∧ (reset s).mUserPostProcessingWsOnNewThread = s.mUserPostProcessingWsOnNewThread
    ∧ (reset s).mUserOutputWsOnNewThread = s.mUserOutputWsOnNewThread := by
  simp [reset]

/-- C4: for every successful `configure` call, the first post-processing
worker is the `WQueueOrderer` (the Reorderer) if and only if the number of
parallel pose replicas — `spWPoses.size()`, i.e. `gpuNumber` — is greater
than 1; membership of the Reorderer in the post-processing list is equivalent
to the same condition. -/
theorem wQueueOrderer_iff_multiple_replicas (gpuNumber : Int)
    (extractFace extractHands renderOutput : Bool) (poseScaleMode : ScaleModeM)
    (finalOutputSize producerSize netOutputSize : SizeM) :
    (spWPosesBuild gpuNumber extractFace extractHands renderOutput).length
        = gpuNumber.toNat
    ∧ ((mPostProcessingWsBuild
          (spWPosesBuild gpuNumber extractFace extractHands renderOutput)
          renderOutput
          (keyPointScalerCondition poseScaleMode finalOutputSize producerSize
            netOutputSize)).head? = some Worker.wQueueOrderer
        ↔ gpuNumber > 1)
    ∧ (Worker.wQueueOrderer ∈ mPostProcessingWsBuild
          (spWPosesBuild gpuNumber extractFace extractHands renderOutput)
          renderOutput
          (keyPointScalerCondition poseScaleMode finalOutputSize producerSize
            netOutputSize)
        ↔ gpuNumber > 1) := by
  have hlen : (spWPosesBuild gpuNumber extractFace extractHands renderOutput).length
      = gpuNumber.toNat := by
    simp [spWPosesBuild]
  have hiff : 1 < gpuNumber.toNat ↔ 1 < gpuNumber := by
    exact_mod_cast @Int.lt_toNat gpuNumber 1
  refine ⟨hlen, ?_, ?_⟩ <;>
    · rw [gt_iff_lt, ← hiff]
      unfold mPostProcessingWsBuild
      rw [hlen]
      split_ifs with h1 h2 h3 <;> simp_all

/-- The producer count is 1 exactly when exactly one of the internal datum
producer and the user input slot is configured, i.e. when the boolean equality
tested at wrapper.hpp line 910 is false. -/
theorem numProducers_eq_one_iff (s : WrapperState) :
    numProducers s = 1 ↔ ¬(s.wDatumProducer.isNone = s.mUserInputWs.isEmpty) := by
  unfold numProducers
  rcases hp : s.wDatumProducer with _ | p <;>
    rcases hu : s.mUserInputWs with _ | ⟨w, ws⟩ <;> simp

/-- A successful `ingressSelect` returns the user input workers, the internal
producer as a singleton, or nothing. -/
theorem ingressSelect_ok (userIn : List Worker) (producer : Option Worker)
    (mode : ThreadManagerMode) (ws : List Worker)
    (h : ingressSelect userIn producer mode = .ok ws) :
    ws = userIn
    ∨ (userIn = [] ∧ ∃ p, producer = some p ∧ ws = [p])
    ∨ (userIn = [] ∧ producer = none ∧ ws = []) := by
  unfold ingressSelect at h
  by_cases h1 : userIn = [] <;> rcases hp : producer with _ | p <;>
    simp_all <;> split_ifs at h <;> simp_all

/-- `ingressPhase` only ever raises "No input selected", and only when both
ingress sources are absent. -/
theorem ingressPhase_error_eq (userIn : List Worker) (userInNew : Bool)
    (producer : Option Worker) (mode : ThreadManagerMode) (mt : Bool)
    (wIdGen wCvIn wCvOut : Worker) (e : ConfigError)
    (h : ingressPhase userIn userInNew producer mode mt wIdGen wCvIn wCvOut
      = .error e) :
    e = ConfigError.noInputSelected ∧ userIn = [] ∧ producer = none := by
  unfold ingressPhase ingressSelect at h
  by_cases h1 : userIn = [] <;> rcases producer with _ | p <;>
    by_cases h2 : userInNew <;> split_ifs at h <;> simp_all [Except.map]

/-- C2: for every `start()`/`exec()` call outside asynchronous-ingress mode,
on a configured wrapper (`spWCvMatToOpInput`/`spWCvMatToOpOutput` set), graph
construction raises the "1 and only 1 producer" ConfigurationError if and only
if the number of configured producers feeding the first queue (internal datum
producer, user input worker) is not exactly one; with exactly one producer
this validation passes. -/
theorem producer_validation_iff (s : WrapperState) (wIn wOut : Worker)
    (hIn : s.spWCvMatToOpInput = some wIn)
    (hOut : s.spWCvMatToOpOutput = some wOut)
    (hm1 : s.mThreadManagerMode ≠ ThreadManagerMode.Asynchronous)
    (hm2 : s.mThreadManagerMode ≠ ThreadManagerMode.AsynchronousIn) :
    configureThreadManager s = .error ConfigError.producerCount
      ↔ numProducers s ≠ 1 := by
  rw [Ne, numProducers_eq_one_iff, not_not]
  simp only [configureThreadManager, hIn, hOut]
  by_cases hp : s.wDatumProducer.isNone = s.mUserInputWs.isEmpty
  · simp [hp, hm1, hm2]
  · rw [if_neg (by tauto)]
    split_ifs with ho
    · simp [hp]
    · rcases hi : ingressPhase s.mUserInputWs s.mUserInputWsOnNewThread s.wDatumProducer
          s.mThreadManagerMode s.mMultiThreadEnabled
          Worker.wIdGenerator wIn wOut with e | ⟨a1, t1, q1, qo1⟩
      · have := ingressPhase_error_eq _ _ _ _ _ _ _ _ _ hi
        simp [hi, hp, this.1, Except.map]
      · simp [hi, hp, Except.map]

/-- C2 (witness): on the concrete state `sBase` (configured, synchronous,
exactly one producer) the validation iff holds. -/
theorem producer_validation_iff_witness :
    sBase.spWCvMatToOpInput = some Worker.wCvMatToOpInput
    ∧ sBase.spWCvMatToOpOutput = some Worker.wCvMatToOpOutput
    ∧ sBase.mThreadManagerMode ≠ ThreadManagerMode.Asynchronous
    ∧ sBase.mThreadManagerMode ≠ ThreadManagerMode.AsynchronousIn
    ∧ (configureThreadManager sBase = .error ConfigError.producerCount
        ↔ numProducers sBase ≠ 1) :=
  ⟨rfl, rfl, by decide, by decide,
    producer_validation_iff sBase Worker.wCvMatToOpInput Worker.wCvMatToOpOutput
      rfl rfl (by decide) (by decide)⟩

/-- C3 (counterexample): on `sC3` both the internal output workers and the GUI
sink are configured — two consumers drain the last queue — yet
`configureThreadManager` succeeds, so configuring more than one consumer is
not rejected. -/
theorem two_consumers_accepted :
    numConsumers sC3 = 2 ∧ isOkB (configureThreadManager sC3) = true := by
  decide

/-- C3 (amended): for every `start()`/`exec()` call outside asynchronous-egress
mode, on a configured wrapper with exactly one producer, graph construction
raises the "No output selected" ConfigurationError if and only if the number
of configured consumers draining the last queue (internal output workers, user
output worker, GUI sink) is zero; configuring several consumers at once is
accepted, not rejected. -/
theorem output_validation_iff (s : WrapperState) (wIn wOut : Worker)
    (hIn : s.spWCvMatToOpInput = some wIn)
    (hOut : s.spWCvMatToOpOutput = some wOut)
    (hp : numProducers s = 1)
    (hm1 : s.mThreadManagerMode ≠ ThreadManagerMode.Asynchronous)
    (hm2 : s.mThreadManagerMode ≠ ThreadManagerMode.AsynchronousOut) :
    configureThreadManager s = .error ConfigError.noOutputSelected
      ↔ numConsumers s = 0 := by
  have hp1 := (numProducers_eq_one_iff s).mp hp
  have hcons : numConsumers s = 0
      ↔ (s.mOutputWs = [] ∧ s.mUserOutputWs = [] ∧ s.spWGui = none) := by
    unfold numConsumers
    rcases hg : s.spWGui with _ | g <;>
      rcases ho : s.mOutputWs with _ | ⟨w1, ws1⟩ <;>
      rcases hu : s.mUserOutputWs with _ | ⟨w2, ws2⟩ <;> simp
  rw [hcons]
  simp only [configureThreadManager, hIn, hOut]
  rw [if_neg (by tauto)]
  by_cases hc : s.mOutputWs = [] ∧ s.mUserOutputWs = [] ∧ s.spWGui = none
  · simp [hc, hm1, hm2]
  · rw [if_neg (by tauto)]
    rcases hi : ingressPhase s.mUserInputWs s.mUserInputWsOnNewThread s.wDatumProducer
        s.mThreadManagerMode s.mMultiThreadEnabled
        Worker.wIdGenerator wIn wOut with e | ⟨a1, t1, q1, qo1⟩
    · rcases ingressPhase_error_eq _ _ _ _ _ _ _ _ _ hi with ⟨_, h1, h2⟩
      rw [h1, h2] at hp1
      simp at hp1
    · simp [hi, hc, Except.map]

/-- C3 (witness): on the concrete state `sBase` (one producer, one internal
consumer, synchronous) the amended validation iff holds. -/
theorem output_validation_iff_witness :
    sBase.spWCvMatToOpInput = some Worker.wCvMatToOpInput
    ∧ sBase.spWCvMatToOpOutput = some Worker.wCvMatToOpOutput
    ∧ numProducers sBase = 1
    ∧ sBase.mThreadManagerMode ≠ ThreadManagerMode.Asynchronous
    ∧ sBase.mThreadManagerMode ≠ ThreadManagerMode.AsynchronousOut
    ∧ (configureThreadManager sBase = .error ConfigError.noOutputSelected
        ↔ numConsumers sBase = 0) :=
  ⟨rfl, rfl, by decide, by decide, by decide,
    output_validation_iff sBase Worker.wCvMatToOpInput Worker.wCvMatToOpOutput
      rfl rfl (by decide) (by decide) (by decide)⟩

/-- `threadIdPP` leaves the counter unchanged in single-thread mode. -/
theorem tpp_false (t : Nat) : tpp false t = t := rfl

/-- `threadIdPP` increments the counter in multi-threaded mode while the
counter stays below `2 ^ 32`. -/
theorem tpp_lt (t : Nat) (h : t + 1 < UM) : tpp true t = t + 1 := by
  simp [tpp, Nat.mod_eq_of_lt h]

/-- `threadIdsSorted` agrees with `List.Chain'` of `≤`. -/
theorem threadIdsSorted_iff_chain (l : List Nat) :
    threadIdsSorted l = true ↔ List.Chain' (· ≤ ·) l := by
  induction l with
  | nil => simp [threadIdsSorted]
  | cons a l ih =>
    cases l with
    | nil => simp [threadIdsSorted]
    | cons b r =>
      rw [threadIdsSorted, List.chain'_cons, Bool.and_eq_true, decide_eq_true_iff, ih]

/-- The shape of a successful `ingressPhase`: one or two add calls whose
flattened worker list is the selected ingress workers followed by the id
generator and the two converters; the queue counters come out adjacent. -/
theorem ingressPhase_ok_shape (userIn : List Worker) (userInNew : Bool)
    (producer : Option Worker) (mode : ThreadManagerMode) (mt : Bool)
    (wIdGen wCvIn wCvOut : Worker) (a1 : List AddCall) (t1 q1 qo1 : Nat)
    (h : ingressPhase userIn userInNew producer mode mt wIdGen wCvIn wCvOut
      = .ok (a1, t1, q1, qo1)) :
    (∃ ingressWs,
      (ingressWs = userIn
        ∨ (userIn = [] ∧ ∃ p, producer = some p ∧ ingressWs = [p])
        ∨ (userIn = [] ∧ producer = none ∧ ingressWs = []))
      ∧ a1.flatMap AddCall.workers = ingressWs ++ [wIdGen, wCvIn, wCvOut])
    ∧ qo1 = q1 + 1
    ∧ (∀ a ∈ a1, a.queueOut = a.queueIn + 1) := by
  unfold ingressPhase at h
  split_ifs at h with hA
  · simp only [Except.ok.injEq, Prod.mk.injEq] at h
    obtain ⟨ha, ht, hq, hqo⟩ := h
    subst ha ht hq hqo
    refine ⟨⟨userIn, Or.inl rfl, by simp⟩, rfl, ?_⟩
    intro a ha
    simp only [List.mem_cons, List.not_mem_nil, or_false] at ha
    rcases ha with rfl | rfl <;> rfl
  · rcases hs : ingressSelect userIn producer mode with e | ws <;>
      rw [hs] at h <;> simp only [Except.map] at h
    · cases h
    · simp only [Except.ok.injEq, Prod.mk.injEq] at h
      obtain ⟨ha, ht, hq, hqo⟩ := h
      subst ha ht hq hqo
      refine ⟨⟨ws, ingressSelect_ok userIn producer mode ws hs,
        by simp [mergeWorkers]⟩, rfl, ?_⟩
      intro a ha
      simp only [List.mem_cons, List.not_mem_nil, or_false] at ha
      subst ha
      rfl

/-- Appending two non-decreasing thread-id lists separated by a bound is
non-decreasing. -/
theorem chain_le_append (l1 l2 : List Nat) (b : Nat)
    (h1 : List.Chain' (· ≤ ·) l1) (h2 : List.Chain' (· ≤ ·) l2)
    (hb1 : ∀ x ∈ l1, x ≤ b) (hb2 : ∀ y ∈ l2, b ≤ y) :
    List.Chain' (· ≤ ·) (l1 ++ l2) := by
  rw [List.chain'_append]
  refine ⟨h1, h2, fun x hx y hy => ?_⟩
  exact le_trans (hb1 x (List.mem_of_mem_getLast? hx)) (hb2 y (List.mem_of_mem_head? hy))

/-- `unsigned int` subtraction of 1 below the modulus. -/
theorem unsigned_pred (t : Nat) (h1 : 1 ≤ t) (h2 : t < UM) :
    (t + (UM - 1)) % UM = t - 1 := by
  have hUM : (0 : Nat) < UM := by norm_num [UM]
  have he : t + (UM - 1) = UM + (t - 1) := by omega
  rw [he, Nat.add_mod_left]
  exact Nat.mod_eq_of_lt (by omega)

/-- Thread ids of a successful `ingressPhase` in multi-threaded mode:
non-decreasing, all strictly below the returned id, which is 1 or 2. -/
theorem ingressPhase_ids_mt (userIn : List Worker) (userInNew : Bool)
    (producer : Option Worker) (mode : ThreadManagerMode)
    (wIdGen wCvIn wCvOut : Worker) (a1 : List AddCall) (t1 q1 qo1 : Nat)
    (h : ingressPhase userIn userInNew producer mode true wIdGen wCvIn wCvOut
      = .ok (a1, t1, q1, qo1)) :
    List.Chain' (· ≤ ·) (a1.map AddCall.threadId)
    ∧ (∀ x ∈ a1.map AddCall.threadId, x < t1)
    ∧ 1 ≤ t1 ∧ t1 ≤ 2 := by
  have e1 : tpp true 0 = 1 := by decide
  have e2 : tpp true 1 = 2 := by decide
  unfold ingressPhase at h
  split_ifs at h with hA
  · simp only [e1, e2, Except.ok.injEq, Prod.mk.injEq] at h
    obtain ⟨ha, ht, hq, hqo⟩ := h
    subst ha ht hq hqo
    refine ⟨by simp [List.chain'_cons], ?_, by omega, by omega⟩
    intro x hx
    simp only [List.map_cons, List.map_nil, List.mem_cons, List.not_mem_nil,
      or_false] at hx
    rcases hx with rfl | rfl <;> omega
  · rcases hs : ingressSelect userIn producer mode with e | ws <;>
      rw [hs] at h <;> simp only [Except.map] at h
    · cases h
    · simp only [e1, Except.ok.injEq, Prod.mk.injEq] at h
      obtain ⟨ha, ht, hq, hqo⟩ := h
      subst ha ht hq hqo
      refine ⟨by simp, ?_, by omega, by omega⟩
      intro x hx
      simp only [List.map_cons, List.map_nil, List.mem_cons, List.not_mem_nil,
        or_false] at hx
      subst hx
      omega

/-- Thread ids of a successful `ingressPhase` in single-thread mode: every add
call carries id 0, and the returned id is 0. -/
theorem ingressPhase_ids_st (userIn : List Worker) (userInNew : Bool)
    (producer : Option Worker) (mode : ThreadManagerMode)
    (wIdGen wCvIn wCvOut : Worker) (a1 : List AddCall) (t1 q1 qo1 : Nat)
    (h : ingressPhase userIn userInNew producer mode false wIdGen wCvIn wCvOut
      = .ok (a1, t1, q1, qo1)) :
    (∀ a ∈ a1, a.threadId = 0) ∧ t1 = 0 := by
  unfold ingressPhase at h
  split_ifs at h with hA
  · simp only [tpp_false, Except.ok.injEq, Prod.mk.injEq] at h
    obtain ⟨ha, ht, hq, hqo⟩ := h
    subst ha ht hq hqo
    refine ⟨?_, rfl⟩
    intro a ha
    simp only [List.mem_cons, List.not_mem_nil, or_false] at ha
    rcases ha with rfl | rfl <;> rfl
  · rcases hs : ingressSelect userIn producer mode with e | ws <;>
      rw [hs] at h <;> simp only [Except.map] at h
    · cases h
    · simp only [tpp_false, Except.ok.injEq, Prod.mk.injEq] at h
      obtain ⟨ha, ht, hq, hqo⟩ := h
      subst ha ht hq hqo
      refine ⟨?_, rfl⟩
      intro a ha
      simp only [List.mem_cons, List.not_mem_nil, or_false] at ha
      subst ha
      rfl

/-- Workers and queue indices of the pose-replica loop: one add call per
replica, all sharing the queue pair `(q, qo)`. -/
theorem poseReplicaAdds_workers (wPoses : List (List Worker)) (t q qo : Nat) :
    (poseReplicaAdds wPoses t q qo).1.map AddCall.workers = wPoses
    ∧ ∀ a ∈ (poseReplicaAdds wPoses t q qo).1, a.queueIn = q ∧ a.queueOut = qo := by
  induction wPoses generalizing t with
  | nil => simp [poseReplicaAdds]
  | cons w rest ih =>
    obtain ⟨ih1, ih2⟩ := ih (tpp true t)
    refine ⟨by simp [poseReplicaAdds, ih1], ?_⟩
    intro a ha
    simp only [poseReplicaAdds, List.mem_cons] at ha
    rcases ha with rfl | ha
    · exact ⟨rfl, rfl⟩
    · exact ih2 a ha

/-- Thread ids of the pose-replica loop below the modulus: consecutive ids
starting at `t`, ending with counter `t + number of replicas`. -/
theorem poseReplicaAdds_ids (wPoses : List (List Worker)) (q qo : Nat) :
    ∀ t, t + wPoses.length < UM →
      List.Chain' (· ≤ ·) ((poseReplicaAdds wPoses t q qo).1.map AddCall.threadId)
      ∧ (∀ x ∈ (poseReplicaAdds wPoses t q qo).1.map AddCall.threadId,
          t ≤ x ∧ x < t + wPoses.length)
      ∧ (poseReplicaAdds wPoses t q qo).2 = t + wPoses.length := by
  induction wPoses with
  | nil => intro t h; simp [poseReplicaAdds]
  | cons w rest ih =>
    intro t hUM
    have hlen : t + (rest.length + 1) < UM := by simpa using hUM
    have ht : tpp true t = t + 1 := tpp_lt t (by omega)
    obtain ⟨ih1, ih2, ih3⟩ := ih (t + 1) (by omega)
    refine ⟨?_, ?_, ?_⟩
    · simp only [poseReplicaAdds, ht, List.map_cons]
      rw [List.chain'_cons']
      refine ⟨fun y hy => ?_, ih1⟩
      have := ih2 y (List.mem_of_mem_head? hy)
      omega
    · intro x hx
      simp only [poseReplicaAdds, ht, List.map_cons, List.mem_cons] at hx
      rw [List.length_cons]
      rcases hx with rfl | hx
      · omega
      · have := ih2 x hx
        omega
    · simp only [poseReplicaAdds, ht]
      rw [ih3, List.length_cons]
      omega

/-- Full specification of `posePhase` in multi-threaded mode: one add per
replica with consecutive thread ids and the shared queue pair. -/
theorem posePhase_mt_spec (wPoses : List (List Worker)) (t q qo : Nat)
    (hUM : t + wPoses.length < UM) (hq : qo = q + 1) :
    (posePhase wPoses true t q qo).1.map AddCall.workers = wPoses
    ∧ List.Chain' (· ≤ ·) ((posePhase wPoses true t q qo).1.map AddCall.threadId)
    ∧ (∀ x ∈ (posePhase wPoses true t q qo).1.map AddCall.threadId,
        t ≤ x ∧ x < t + wPoses.length)
    ∧ (posePhase wPoses true t q qo).2.1 = t + wPoses.length
    ∧ (∀ a ∈ (posePhase wPoses true t q qo).1,
        a.queueOut = a.queueIn + 1 ∧ a.queueIn = q)
    ∧ (posePhase wPoses true t q qo).2.2.2 = (posePhase wPoses true t q qo).2.2.1 + 1 := by
  by_cases hw : wPoses = []
  · subst hw
    simp [posePhase, hq]
  · obtain ⟨hw1, hw2⟩ := poseReplicaAdds_workers wPoses t q qo
    obtain ⟨hi1, hi2, hi3⟩ := poseReplicaAdds_ids wPoses q qo t hUM
    simp only [posePhase, if_neg hw, if_pos trivial, ite_true]
    refine ⟨hw1, hi1, hi2, hi3, ?_, by omega⟩
    intro a ha
    obtain ⟨h1, h2⟩ := hw2 a ha
    exact ⟨by omega, h1⟩

/-- Full specification of `posePhase` in single-thread mode: only the first
replica is added, on the unchanged thread id. -/
theorem posePhase_st_spec (wPoses : List (List Worker)) (t q qo : Nat)
    (hq : qo = q + 1) :
    (posePhase wPoses false t q qo).1.map AddCall.workers
      = (if wPoses = [] then [] else [wPoses.headI])
    ∧ (∀ a ∈ (posePhase wPoses false t q qo).1, a.threadId = t)
    ∧ (posePhase wPoses false t q qo).2.1 = t
    ∧ (∀ a ∈ (posePhase wPoses false t q qo).1,
        a.queueOut = a.queueIn + 1 ∧ a.queueIn = q)
    ∧ (posePhase wPoses false t q qo).2.2.2 = (posePhase wPoses false t q qo).2.2.1 + 1 := by
  by_cases hw : wPoses = [] <;> simp [posePhase, hw, hq]

/-- Specification of `postPhase` in multi-threaded mode (below the modulus):
at most three add calls with consecutive thread ids from `t`, adjacent queue
pairs, and every added worker drawn from the three input lists. -/
theorem postPhase_mt_spec (postWs userPostWs outWs : List Worker)
    (userPostNew : Bool) (t q qo : Nat)
    (hUM : t + 3 < UM) (hq : qo = q + 1) :
    List.Chain' (· ≤ ·)
      ((postPhase postWs userPostWs outWs userPostNew true t q qo).1.map AddCall.threadId)
    ∧ (∀ x ∈ (postPhase postWs userPostWs outWs userPostNew true t q qo).1.map
        AddCall.threadId,
        t ≤ x ∧ x < (postPhase postWs userPostWs outWs userPostNew true t q qo).2.1)
    ∧ t ≤ (postPhase postWs userPostWs outWs userPostNew true t q qo).2.1
    ∧ (postPhase postWs userPostWs outWs userPostNew true t q qo).2.1 ≤ t + 3
    ∧ (∀ a ∈ (postPhase postWs userPostWs outWs userPostNew true t q qo).1,
        a.queueOut = a.queueIn + 1)
    ∧ (postPhase postWs userPostWs outWs userPostNew true t q qo).2.2.2
        = (postPhase postWs userPostWs outWs userPostNew true t q qo).2.2.1 + 1
    ∧ (∀ w ∈ (postPhase postWs userPostWs outWs userPostNew true t q qo).1.flatMap
        AddCall.workers, w ∈ postWs ∨ w ∈ userPostWs ∨ w ∈ outWs) := by
  subst hq
  have e1 : tpp true t = t + 1 := tpp_lt t (by omega)
  have e2 : tpp true (t + 1) = t + 2 := tpp_lt (t + 1) (by omega)
  have e3 : tpp true (t + 2) = t + 3 := tpp_lt (t + 2) (by omega)
  unfold postPhase
  split_ifs <;>
    simp only [e1, e2, e3] <;>
    refine ⟨?_, ?_, by (try simp only [e1, e2, e3]); all_goals omega,
      by (try simp only [e1, e2, e3]); all_goals omega, ?_,
      by (try simp only [e1, e2, e3]); all_goals omega, ?_⟩ <;>
    first
      | (simp [List.chain'_cons]; done)
      | (intro x hx
         simp only [List.map_cons, List.map_nil, List.mem_cons,
           List.not_mem_nil, or_false] at hx
         first
           | ((rcases hx with rfl | rfl | rfl) <;> omega)
           | ((rcases hx with rfl | rfl) <;> omega)
           | (subst hx; omega))
      | (intro a ha
         simp only [List.mem_cons, List.not_mem_nil, or_false] at ha
         first
           | ((rcases ha with rfl | rfl | rfl) <;> rfl)
           | ((rcases ha with rfl | rfl) <;> rfl)
           | (subst ha; rfl))
      | (intro w hw
         first
           | tauto
           | (simp only [mergeWorkers, List.flatMap_cons, List.flatMap_nil,
                List.append_nil, List.mem_append] at hw
              tauto))
      | (intro x hx; simp at hx)
      | tauto

/-- Specification of `postPhase` in single-thread mode: every add call carries
the unchanged thread id `t`, queue pairs stay adjacent, workers drawn from the
three input lists. -/
theorem postPhase_st_spec (postWs userPostWs outWs : List Worker)
    (userPostNew : Bool) (t q qo : Nat) (hq : qo = q + 1) :
    (∀ a ∈ (postPhase postWs userPostWs outWs userPostNew false t q qo).1,
        a.threadId = t)
    ∧ (postPhase postWs userPostWs outWs userPostNew false t q qo).2.1 = t
    ∧ (∀ a ∈ (postPhase postWs userPostWs outWs userPostNew false t q qo).1,
        a.queueOut = a.queueIn + 1)
    ∧ (postPhase postWs userPostWs outWs userPostNew false t q qo).2.2.2
        = (postPhase postWs userPostWs outWs userPostNew false t q qo).2.2.1 + 1
    ∧ (∀ w ∈ (postPhase postWs userPostWs outWs userPostNew false t q qo).1.flatMap
        AddCall.workers, w ∈ postWs ∨ w ∈ userPostWs ∨ w ∈ outWs) := by
  subst hq
  unfold postPhase
  split_ifs <;>
    simp only [tpp_false] <;>
    refine ⟨?_, ?_, ?_, ?_, ?_⟩ <;>
    first
      | rfl
      | omega
      | skip
    <;>
    first
      | (intro a ha
         simp only [List.mem_cons, List.not_mem_nil, or_false] at ha
         first
           | ((rcases ha with rfl | rfl | rfl) <;> rfl)
           | ((rcases ha with rfl | rfl) <;> rfl)
           | (subst ha; rfl))
      | (intro w hw
         first
           | tauto
           | (simp only [mergeWorkers, List.flatMap_cons, List.flatMap_nil,
                List.append_nil, List.mem_append] at hw
              tauto))
      | (intro x hx; simp at hx)
      | tauto

/-- Stage contents of `posePhase` for either threading mode: all replicas when
multi-threaded, only the first otherwise. -/
theorem posePhase_workers (wPoses : List (List Worker)) (mt : Bool) (t q qo : Nat) :
    (posePhase wPoses mt t q qo).1.map AddCall.workers
      = (if wPoses = [] then [] else if mt = true then wPoses else [wPoses.headI]) := by
  by_cases hw : wPoses = [] <;> cases mt <;>
    simp [posePhase, hw, (poseReplicaAdds_workers wPoses t q qo).1]

/-- Queue discipline of `posePhase`: all replica adds share the input pair,
outputs stay adjacent. -/
theorem posePhase_queues (wPoses : List (List Worker)) (mt : Bool) (t q qo : Nat)
    (hq : qo = q + 1) :
    (∀ a ∈ (posePhase wPoses mt t q qo).1, a.queueOut = a.queueIn + 1 ∧ a.queueIn = q)
    ∧ (posePhase wPoses mt t q qo).2.2.2 = (posePhase wPoses mt t q qo).2.2.1 + 1 := by
  subst hq
  by_cases hw : wPoses = []
  · cases mt <;> simp [posePhase, hw]
  · cases mt
    · simp [posePhase, hw]
    · obtain ⟨_, hw2⟩ := poseReplicaAdds_workers wPoses t q (q + 1)
      simp only [posePhase, if_neg hw]
      refine ⟨?_, by simp⟩
      intro a ha
      simp only [if_pos rfl, ite_true] at ha ⊢
      obtain ⟨hqi, hqo⟩ := hw2 a (by simpa using ha)
      omega

/-- Every worker added by `postPhase` comes from one of its three input
lists. -/
theorem postPhase_workers_mem (postWs userPostWs outWs : List Worker)
    (userPostNew mt : Bool) (t q qo : Nat) :
    ∀ w ∈ (postPhase postWs userPostWs outWs userPostNew mt t q qo).1.flatMap
        AddCall.workers, w ∈ postWs ∨ w ∈ userPostWs ∨ w ∈ outWs := by
  unfold postPhase
  split_ifs <;> intro w hw <;>
    simp only [mergeWorkers, List.flatMap_cons, List.flatMap_nil, List.append_nil,
      List.flatMap_nil, List.mem_append, List.not_mem_nil] at hw <;>
    tauto

/-- Queue discipline of `postPhase`. -/
theorem postPhase_queues (postWs userPostWs outWs : List Worker)
    (userPostNew mt : Bool) (t q qo : Nat) (hq : qo = q + 1) :
    (∀ a ∈ (postPhase postWs userPostWs outWs userPostNew mt t q qo).1,
        a.queueOut = a.queueIn + 1)
    ∧ (postPhase postWs userPostWs outWs userPostNew mt t q qo).2.2.2
        = (postPhase postWs userPostWs outWs userPostNew mt t q qo).2.2.1 + 1 := by
  subst hq
  unfold postPhase
  split_ifs <;>
    refine ⟨?_, rfl⟩ <;>
    intro a ha <;>
    simp only [List.mem_cons, List.not_mem_nil, or_false] at ha <;>
    first
      | ((rcases ha with rfl | rfl | rfl) <;> rfl)
      | ((rcases ha with rfl | rfl) <;> rfl)
      | (subst ha; rfl)
      | (cases ha)

/-- The add calls and counters of `userOutputPhase`, written out by case. -/
theorem userOutputPhase_adds (userOutWs : List Worker) (onNew mt : Bool)
    (t q qo : Nat) :
    (userOutputPhase userOutWs onNew mt t q qo).1
      = (if userOutWs = [] then []
         else if onNew = true then [⟨t, userOutWs, q, qo⟩]
         else [⟨(t + (UM - 1)) % UM, userOutWs, q, qo⟩])
    ∧ (userOutputPhase userOutWs onNew mt t q qo).2.1
        = (if userOutWs ≠ [] ∧ onNew = true then tpp mt t else t)
    ∧ (userOutputPhase userOutWs onNew mt t q qo).2.2.1
        = (if userOutWs = [] then q else q + 1)
    ∧ (userOutputPhase userOutWs onNew mt t q qo).2.2.2
        = (if userOutWs = [] then qo else qo + 1) := by
  by_cases h1 : userOutWs = [] <;> cases onNew <;> simp [userOutputPhase, h1]

/-- The add calls and counters of `guiPhase`, written out by case. -/
theorem guiPhase_adds (gui : Option Worker) (mt : Bool) (t q qo : Nat) :
    (guiPhase gui mt t q qo).1
      = (match gui with | some g => [⟨t, [g], q, qo⟩] | none => [])
    ∧ (guiPhase gui mt t q qo).2.2.1
        = (match gui with | some _ => q + 1 | none => q)
    ∧ (guiPhase gui mt t q qo).2.2.2
        = (match gui with | some _ => qo + 1 | none => qo) := by
  cases gui <;> simp [guiPhase]

/-- Decomposition of a successful `configureThreadManager` run into its five
phases. -/
theorem ctm_ok_decomp (s : WrapperState) (tr : List AddCall) (s2 : WrapperState)
    (h : configureThreadManager s = .ok (tr, s2)) :
    ∃ wIn wOut a1 t1 q1 qo1 a2 t2 q2 qo2 a3 t3 q3 qo3 a4 t4 q4 qo4 a5 t5 q5 qo5,
      s.spWCvMatToOpInput = some wIn
      ∧ s.spWCvMatToOpOutput = some wOut
      ∧ ingressPhase s.mUserInputWs s.mUserInputWsOnNewThread s.wDatumProducer
          s.mThreadManagerMode s.mMultiThreadEnabled Worker.wIdGenerator wIn wOut
          = .ok (a1, t1, q1, qo1)
      ∧ posePhase s.spWPoses s.mMultiThreadEnabled t1 q1 qo1 = (a2, t2, q2, qo2)
      ∧ postPhase s.mPostProcessingWs s.mUserPostProcessingWs s.mOutputWs
          s.mUserPostProcessingWsOnNewThread s.mMultiThreadEnabled t2 q2 qo2
          = (a3, t3, q3, qo3)
      ∧ userOutputPhase s.mUserOutputWs s.mUserOutputWsOnNewThread
          s.mMultiThreadEnabled t3 q3 qo3 = (a4, t4, q4, qo4)
      ∧ guiPhase s.spWGui s.mMultiThreadEnabled t4 q4 qo4 = (a5, t5, q5, qo5)
      ∧ tr = a1 ++ a2 ++ a3 ++ a4 ++ a5 := by
  rcases hIn : s.spWCvMatToOpInput with _ | wIn <;>
    rcases hOut : s.spWCvMatToOpOutput with _ | wOut <;>
    simp only [configureThreadManager, hIn, hOut] at h
  any_goals exact Except.noConfusion h
  by_cases h1 : s.wDatumProducer.isNone = s.mUserInputWs.isEmpty
      ∧ s.mThreadManagerMode ≠ ThreadManagerMode.Asynchronous
      ∧ s.mThreadManagerMode ≠ ThreadManagerMode.AsynchronousIn
  · rw [if_pos h1] at h
    exact Except.noConfusion h
  rw [if_neg h1] at h
  by_cases h2 : s.mOutputWs = [] ∧ s.mUserOutputWs = [] ∧ s.spWGui = none
      ∧ s.mThreadManagerMode ≠ ThreadManagerMode.Asynchronous
      ∧ s.mThreadManagerMode ≠ ThreadManagerMode.AsynchronousOut
  · rw [if_pos h2] at h
    exact Except.noConfusion h
  rw [if_neg h2] at h
  rcases hi : ingressPhase s.mUserInputWs s.mUserInputWsOnNewThread s.wDatumProducer
      s.mThreadManagerMode s.mMultiThreadEnabled Worker.wIdGenerator wIn wOut
    with e | ⟨a1, t1, q1, qo1⟩ <;> rw [hi] at h <;> simp only [Except.map] at h
  · exact Except.noConfusion h
  rcases hp2 : posePhase s.spWPoses s.mMultiThreadEnabled t1 q1 qo1
    with ⟨a2, t2, q2, qo2⟩
  rcases hp3 : postPhase s.mPostProcessingWs s.mUserPostProcessingWs s.mOutputWs
      s.mUserPostProcessingWsOnNewThread s.mMultiThreadEnabled t2 q2 qo2
    with ⟨a3, t3, q3, qo3⟩
  rcases hp4 : userOutputPhase s.mUserOutputWs s.mUserOutputWsOnNewThread
      s.mMultiThreadEnabled t3 q3 qo3 with ⟨a4, t4, q4, qo4⟩
  rcases hp5 : guiPhase s.spWGui s.mMultiThreadEnabled t4 q4 qo4
    with ⟨a5, t5, q5, qo5⟩
  simp only [Except.ok.injEq, Prod.mk.injEq] at h
  obtain ⟨htr, hst⟩ := h
  subst htr
  refine ⟨wIn, wOut, a1, t1, q1, qo1, a2, t2, q2, qo2, a3, t3, q3, qo3,
    a4, t4, q4, qo4, a5, t5, q5, qo5, rfl, rfl, hi, hp2, hp3, hp4, hp5, ?_⟩
  simp [phasesAfterIngress, hp2, hp3, hp4, hp5, List.append_assoc]

/-- A list of thread ids that are all equal is non-decreasing. -/
theorem chain_le_of_all_eq (l : List Nat) (c : Nat) (h : ∀ x ∈ l, x = c) :
    List.Chain' (· ≤ ·) l := by
  induction l with
  | nil => simp
  | cons a r ih =>
    rw [List.chain'_cons']
    refine ⟨fun y hy => ?_, ih (fun x hx => h x (List.mem_cons_of_mem a hx))⟩
    rw [h a (List.mem_cons_self a r),
      h y (List.mem_cons_of_mem a (List.mem_of_mem_head? hy))]

/-- Thread ids of the user-output and GUI phases in multi-threaded mode:
non-decreasing and at least `t - 1`. -/
theorem tail_mt_ids (userOutWs : List Worker) (onNew : Bool) (gui : Option Worker)
    (t q qo : Nat) (ht : 1 ≤ t) (hUM : t + 2 < UM) :
    List.Chain' (· ≤ ·)
      (((userOutputPhase userOutWs onNew true t q qo).1
        ++ (guiPhase gui true (userOutputPhase userOutWs onNew true t q qo).2.1
            (userOutputPhase userOutWs onNew true t q qo).2.2.1
            (userOutputPhase userOutWs onNew true t q qo).2.2.2).1).map AddCall.threadId)
    ∧ ∀ x ∈ ((userOutputPhase userOutWs onNew true t q qo).1
        ++ (guiPhase gui true (userOutputPhase userOutWs onNew true t q qo).2.1
            (userOutputPhase userOutWs onNew true t q qo).2.2.1
            (userOutputPhase userOutWs onNew true t q qo).2.2.2).1).map AddCall.threadId,
        t - 1 ≤ x := by
  have e1 : tpp true t = t + 1 := tpp_lt t (by omega)
  have hpred : (t + (UM - 1)) % UM = t - 1 := unsigned_pred t ht (by omega)
  by_cases h1 : userOutWs = [] <;> cases onNew <;> rcases gui with _ | g <;>
    simp [userOutputPhase, guiPhase, h1, e1, hpred, List.chain'_cons] <;>
    omega

/-- C6 (counterexample): on `sSingle` (multi-threading disabled, user output
worker on the same thread, GUI enabled) `configureThreadManager` issues add
calls whose thread ids are `[0, 0, 0, 4294967295, 0]` — not a non-decreasing
sequence, refuting the claim that thread ids are always non-decreasing. -/
theorem thread_ids_not_monotone :
    (ctmTrace sSingle).map (fun tr => tr.map AddCall.threadId)
        = .ok [0, 0, 0, 4294967295, 0]
    ∧ (ctmTrace sSingle).map (fun tr => threadIdsSorted (tr.map AddCall.threadId))
        = .ok false := by
  decide

/-- C6 (amended): every `mThreadManager.add` call issued by
`configureThreadManager` passes `queueOut = queueIn + 1` (so the input queue
index is strictly smaller than the output index), and all replicas of the
parallel pose group share one input/output queue pair.  The thread ids across
the sequence of add calls form a non-decreasing sequence **except** in the one
case where multi-threading is disabled, a user output worker is configured
with `workerOnNewThread = false`, and the GUI is enabled (there the user
output stage receives the wrapped id `2^32 - 1` and the GUI stage id 0 after
it).  The replica-count bound reflects `gpuNumber` being a C++ `int`. -/
theorem add_calls_queue_and_thread_discipline (s : WrapperState)
    (tr : List AddCall) (s2 : WrapperState)
    (h : configureThreadManager s = .ok (tr, s2))
    (hgpu : s.spWPoses.length ≤ 2147483648) :
    (∀ a ∈ tr, a.queueOut = a.queueIn + 1)
    ∧ (∃ pre poseA rest q, tr = pre ++ poseA ++ rest
        ∧ poseA.map AddCall.workers
            = (if s.spWPoses = [] then []
               else if s.mMultiThreadEnabled = true then s.spWPoses
               else [s.spWPoses.headI])
        ∧ ∀ a ∈ poseA, a.queueIn = q ∧ a.queueOut = q + 1)
    ∧ ((s.mMultiThreadEnabled = true ∨ s.mUserOutputWs = []
          ∨ s.mUserOutputWsOnNewThread = true ∨ s.spWGui = none) →
        List.Chain' (· ≤ ·) (tr.map AddCall.threadId)) := by
  obtain ⟨wIn, wOut, a1, t1, q1, qo1, a2, t2, q2, qo2, a3, t3, q3, qo3,
    a4, t4, q4, qo4, a5, t5, q5, qo5, hIn, hOut, hi, hp2, hp3, hp4, hp5, htr⟩ :=
    ctm_ok_decomp s tr s2 h
  obtain ⟨-, hq1, hqok1⟩ := ingressPhase_ok_shape _ _ _ _ _ _ _ _ _ _ _ _ hi
  have hq2p := posePhase_queues s.spWPoses s.mMultiThreadEnabled t1 q1 qo1 hq1
  rw [hp2] at hq2p
  dsimp only at hq2p
  obtain ⟨hqok2, hq2⟩ := hq2p
  have hq2w : qo2 = q2 + 1 := hq2
  have hq3p := postPhase_queues s.mPostProcessingWs s.mUserPostProcessingWs s.mOutputWs
    s.mUserPostProcessingWsOnNewThread s.mMultiThreadEnabled t2 q2 qo2 hq2w
  rw [hp3] at hq3p
  dsimp only at hq3p
  obtain ⟨hqok3, hq3⟩ := hq3p
  have hq3w : qo3 = q3 + 1 := hq3
  obtain ⟨ha4eq, ht4eq, hq4eq, hqo4eq⟩ := userOutputPhase_adds s.mUserOutputWs
    s.mUserOutputWsOnNewThread s.mMultiThreadEnabled t3 q3 qo3
  rw [hp4] at ha4eq ht4eq hq4eq hqo4eq
  dsimp only at ha4eq ht4eq hq4eq hqo4eq
  obtain ⟨ha5eq, hq5eq, hqo5eq⟩ := guiPhase_adds s.spWGui s.mMultiThreadEnabled t4 q4 qo4
  rw [hp5] at ha5eq hq5eq hqo5eq
  dsimp only at ha5eq hq5eq hqo5eq
  have hq4w : qo4 = q4 + 1 := by
    rw [hq4eq, hqo4eq]
    split_ifs <;> omega
  subst htr
  refine ⟨?_, ?_, ?_⟩
  · intro a ha
    simp only [List.mem_append] at ha
    rcases ha with (((ha | ha) | ha) | ha) | ha
    · exact hqok1 a ha
    · exact (hqok2 a ha).1
    · exact hqok3 a ha
    · rw [ha4eq] at ha
      split_ifs at ha
      · cases ha
      · simp only [List.mem_cons, List.not_mem_nil, or_false] at ha
        subst ha
        dsimp only
        omega
      · simp only [List.mem_cons, List.not_mem_nil, or_false] at ha
        subst ha
        dsimp only
        omega
    · rw [ha5eq] at ha
      rcases hg : s.spWGui with _ | g <;> simp only [hg] at ha
      · cases ha
      · simp only [List.mem_cons, List.not_mem_nil, or_false] at ha
        subst ha
        dsimp only
        omega
  · refine ⟨a1, a2, a3 ++ a4 ++ a5, q1, by simp [List.append_assoc], ?_, ?_⟩
    · have hw := posePhase_workers s.spWPoses s.mMultiThreadEnabled t1 q1 qo1
      rw [hp2] at hw
      exact hw
    · intro a ha
      obtain ⟨hx, hy⟩ := hqok2 a ha
      exact ⟨hy, by omega⟩
  · intro hexc
    simp only [List.map_append]
    cases hmt : s.mMultiThreadEnabled with
    | true =>
      rw [hmt] at hi hp2 hp3 hp4 hp5
      obtain ⟨hc1, hb1, ht1a, ht1b⟩ := ingressPhase_ids_mt _ _ _ _ _ _ _ _ _ _ _ hi
      have hUMv : UM = 4294967296 := rfl
      have hp2s := posePhase_mt_spec s.spWPoses t1 q1 qo1 (by omega) hq1
      rw [hp2] at hp2s
      dsimp only at hp2s
      obtain ⟨-, hc2, hb2, ht2eq, -, -⟩ := hp2s
      have ht2v : t2 = t1 + s.spWPoses.length := ht2eq
      have hp3s := postPhase_mt_spec s.mPostProcessingWs s.mUserPostProcessingWs
        s.mOutputWs s.mUserPostProcessingWsOnNewThread t2 q2 qo2 (by omega) hq2w
      rw [hp3] at hp3s
      dsimp only at hp3s
      obtain ⟨hc3, hb3, ht3a, ht3b, -, -, -⟩ := hp3s
      have htail := tail_mt_ids s.mUserOutputWs s.mUserOutputWsOnNewThread s.spWGui
        t3 q3 qo3 (by omega) (by omega)
      rw [hp4] at htail
      dsimp only at htail
      rw [hp5] at htail
      dsimp only at htail
      obtain ⟨hc45, hb45⟩ := htail
      rw [List.map_append] at hc45 hb45
      have hA : List.Chain' (· ≤ ·)
          (a3.map AddCall.threadId ++ (a4.map AddCall.threadId ++ a5.map AddCall.threadId)) :=
        chain_le_append _ _ (t3 - 1) hc3 hc45
          (fun x hx => by have := hb3 x hx; omega)
          (fun y hy => by have := hb45 y hy; omega)
      have hB : List.Chain' (· ≤ ·)
          (a2.map AddCall.threadId ++ (a3.map AddCall.threadId
            ++ (a4.map AddCall.threadId ++ a5.map AddCall.threadId))) :=
        chain_le_append _ _ (t2 - 1) hc2 hA
          (fun x hx => by have := hb2 x hx; omega)
          (fun y hy => by
            simp only [List.mem_append] at hy
            rcases hy with hy | hy | hy
            · have := hb3 y hy; omega
            · have := hb45 y (by simp only [List.mem_append]; exact Or.inl hy); omega
            · have := hb45 y (by simp only [List.mem_append]; exact Or.inr hy); omega)
      have hfin := chain_le_append _ _ (t1 - 1) hc1 hB
        (fun x hx => by have := hb1 x hx; omega)
        (fun y hy => by
          simp only [List.mem_append] at hy
          rcases hy with hy | hy | hy | hy
          · have := hb2 y hy; omega
          · have := hb3 y hy; omega
          · have := hb45 y (by simp only [List.mem_append]; exact Or.inl hy); omega
          · have := hb45 y (by simp only [List.mem_append]; exact Or.inr hy); omega)
      simpa [List.append_assoc] using hfin
    | false =>
      rw [hmt] at hi hp2 hp3 ht4eq
      obtain ⟨hz1, ht1z⟩ := ingressPhase_ids_st _ _ _ _ _ _ _ _ _ _ _ hi
      have hp2s := posePhase_st_spec s.spWPoses t1 q1 qo1 hq1
      rw [hp2] at hp2s
      dsimp only at hp2s
      obtain ⟨-, hz2, ht2z, -, -⟩ := hp2s
      have ht2v : t2 = t1 := ht2z
      have hp3s := postPhase_st_spec s.mPostProcessingWs s.mUserPostProcessingWs
        s.mOutputWs s.mUserPostProcessingWsOnNewThread t2 q2 qo2 hq2w
      rw [hp3] at hp3s
      dsimp only at hp3s
      obtain ⟨hz3, ht3z, -, -, -⟩ := hp3s
      have ht3v : t3 = t2 := ht3z
      have ht30 : t3 = 0 := by omega
      have ht40 : t4 = 0 := by
        rw [ht4eq]
        split_ifs <;> simp [tpp_false, ht30]
      have hz123 : ∀ x ∈ a1.map AddCall.threadId
          ++ (a2.map AddCall.threadId ++ a3.map AddCall.threadId), x = 0 := by
        intro x hx
        simp only [List.mem_append, List.mem_map] at hx
        rcases hx with ⟨a, ha, rfl⟩ | ⟨a, ha, rfl⟩ | ⟨a, ha, rfl⟩
        · exact hz1 a ha
        · rw [hz2 a ha]; omega
        · rw [hz3 a ha]; omega
      have hm5 : a5.map AddCall.threadId
          = (match s.spWGui with | some _ => [t4] | none => []) := by
        rw [ha5eq]
        rcases s.spWGui with _ | g <;> simp
      have hc45 : List.Chain' (· ≤ ·)
          (a4.map AddCall.threadId ++ a5.map AddCall.threadId) := by
        rw [ha4eq, hm5]
        by_cases hu : s.mUserOutputWs = [] <;>
          by_cases hn : s.mUserOutputWsOnNewThread = true <;>
          rcases hg : s.spWGui with _ | g <;>
          simp only [hu, hn, if_true, if_false, ite_true, ite_false,
            not_false_eq_true, not_true_eq_false] <;>
          first
            | (simp [List.chain'_cons, ht40, ht30]; done)
            | (exfalso
               rcases hexc with hmt' | hu' | hn' | hg'
               · rw [hmt'] at hmt; cases hmt
               · exact hu hu'
               · exact hn hn'
               · rw [hg'] at hg; cases hg)
      have hcomp := chain_le_append
        (a1.map AddCall.threadId ++ (a2.map AddCall.threadId ++ a3.map AddCall.threadId))
        (a4.map AddCall.threadId ++ a5.map AddCall.threadId) 0
        (chain_le_of_all_eq _ 0 hz123) hc45
        (fun x hx => le_of_eq (hz123 x hx))
        (fun y _ => Nat.zero_le y)
      simpa [List.append_assoc] using hcomp

/-- C6 (witness): the discipline holds for the concrete trace built from
`sBase`. -/
theorem add_calls_queue_discipline_witness :
    configureThreadManager sBase = .ok (trBase, sBaseAfter)
    ∧ sBase.spWPoses.length ≤ 2147483648
    ∧ ∀ a ∈ trBase, a.queueOut = a.queueIn + 1 :=
  ⟨by decide, by decide,
    (add_calls_queue_and_thread_discipline sBase trBase sBaseAfter
      (by decide) (by decide)).1⟩

/-- The `headI` of a non-empty list is a member. -/
theorem headI_mem_of_ne_nil {α : Type} [Inhabited α] (l : List α) (h : l ≠ []) :
    l.headI ∈ l := by
  cases l with
  | nil => exact absurd rfl h
  | cons a r => simp

/-- C5: in every graph built by a successful `configureThreadManager`, the
freshly created id generator occurs exactly once among all added workers; the
trace splits into an ingress part — whose flattened workers are the ingress
workers (user input workers, or the internal producer, or none) followed by
the id generator and the two converters — then the parallel pose replica
stages, then the remaining stages, and the id generator occurs in neither the
pose part nor the remainder. -/
theorem wIdGenerator_once_before_pose (s : WrapperState) (tr : List AddCall)
    (s2 : WrapperState) (hwf : WellFormedWorkers s)
    (h : configureThreadManager s = .ok (tr, s2)) :
    (tr.flatMap AddCall.workers).count Worker.wIdGenerator = 1
    ∧ ∃ pre poseA rest ingressWs wIn wOut,
        tr = pre ++ poseA ++ rest
        ∧ pre.flatMap AddCall.workers = ingressWs ++ [Worker.wIdGenerator, wIn, wOut]
        ∧ (ingressWs = s.mUserInputWs
            ∨ (s.mUserInputWs = [] ∧ ∃ p, s.wDatumProducer = some p ∧ ingressWs = [p])
            ∨ (s.mUserInputWs = [] ∧ s.wDatumProducer = none ∧ ingressWs = []))
        ∧ poseA.map AddCall.workers
            = (if s.spWPoses = [] then []
               else if s.mMultiThreadEnabled = true then s.spWPoses
               else [s.spWPoses.headI])
        ∧ Worker.wIdGenerator ∉ poseA.flatMap AddCall.workers
        ∧ Worker.wIdGenerator ∉ rest.flatMap AddCall.workers := by
  obtain ⟨wIn, wOut, a1, t1, q1, qo1, a2, t2, q2, qo2, a3, t3, q3, qo3,
    a4, t4, q4, qo4, a5, t5, q5, qo5, hIn, hOut, hi, hp2, hp3, hp4, hp5, htr⟩ :=
    ctm_ok_decomp s tr s2 h
  obtain ⟨⟨ingressWs, hopt, hflat⟩, hq1, -⟩ :=
    ingressPhase_ok_shape _ _ _ _ _ _ _ _ _ _ _ _ hi
  obtain ⟨hwf1, hwf2, hwf3, hwf4, hwf5, hwf6, hwf7, hwf8, hwf9, hwf10⟩ := hwf
  have hwIn : wIn ≠ Worker.wIdGenerator := by
    intro hh
    exact hwf3 (by rw [← hh]; exact hIn)
  have hwOut : wOut ≠ Worker.wIdGenerator := by
    intro hh
    exact hwf4 (by rw [← hh]; exact hOut)
  have hIngNo : Worker.wIdGenerator ∉ ingressWs := by
    rcases hopt with rfl | ⟨h1, p, hp, rfl⟩ | ⟨h1, h2, rfl⟩
    · exact hwf1
    · simp only [List.mem_cons, List.not_mem_nil, or_false]
      intro hc
      exact hwf2 (by rw [hp, hc])
    · simp
  have hposeW := posePhase_workers s.spWPoses s.mMultiThreadEnabled t1 q1 qo1
  rw [hp2] at hposeW
  dsimp only at hposeW
  have hPoseNo : Worker.wIdGenerator ∉ a2.flatMap AddCall.workers := by
    intro hc
    rw [List.mem_flatMap] at hc
    obtain ⟨a, ha, hwk⟩ := hc
    have hmem : a.workers ∈ a2.map AddCall.workers := List.mem_map_of_mem _ ha
    rw [hposeW] at hmem
    split_ifs at hmem with h1 h2
    · cases hmem
    · exact hwf5 a.workers hmem hwk
    · simp only [List.mem_cons, List.not_mem_nil, or_false] at hmem
      rw [hmem] at hwk
      exact hwf5 _ (headI_mem_of_ne_nil _ h1) hwk
  have hPostNo : Worker.wIdGenerator ∉ a3.flatMap AddCall.workers := by
    intro hc
    have hmem := postPhase_workers_mem s.mPostProcessingWs s.mUserPostProcessingWs
      s.mOutputWs s.mUserPostProcessingWsOnNewThread s.mMultiThreadEnabled t2 q2 qo2
      Worker.wIdGenerator (by rw [hp3]; exact hc)
    rcases hmem with hm | hm | hm
    · exact hwf6 hm
    · exact hwf7 hm
    · exact hwf8 hm
  obtain ⟨ha4eq, -, -, -⟩ := userOutputPhase_adds s.mUserOutputWs
    s.mUserOutputWsOnNewThread s.mMultiThreadEnabled t3 q3 qo3
  rw [hp4] at ha4eq
  dsimp only at ha4eq
  obtain ⟨ha5eq, -, -⟩ := guiPhase_adds s.spWGui s.mMultiThreadEnabled t4 q4 qo4
  rw [hp5] at ha5eq
  dsimp only at ha5eq
  have hUONo : Worker.wIdGenerator ∉ a4.flatMap AddCall.workers := by
    rw [ha4eq]
    split_ifs <;> simp_all
  have hGuiNo : Worker.wIdGenerator ∉ a5.flatMap AddCall.workers := by
    rw [ha5eq]
    rcases hg : s.spWGui with _ | g
    · simp
    · have hgne : g ≠ Worker.wIdGenerator := by
        intro hh
        exact hwf9 (by rw [← hh]; exact hg)
      simp [Ne.symm hgne]
  subst htr
  constructor
  · simp only [List.flatMap_append, List.count_append]
    rw [hflat]
    rw [List.count_append]
    rw [List.count_eq_zero.mpr hIngNo, List.count_eq_zero.mpr hPoseNo,
      List.count_eq_zero.mpr hPostNo, List.count_eq_zero.mpr hUONo,
      List.count_eq_zero.mpr hGuiNo]
    simp [List.count_cons, hwIn, hwOut]
  · refine ⟨a1, a2, a3 ++ a4 ++ a5, ingressWs, wIn, wOut,
      by simp [List.append_assoc], hflat, hopt, hposeW, hPoseNo, ?_⟩
    simp only [List.flatMap_append, List.mem_append]
    intro hc
    rcases hc with (hc | hc) | hc
    · exact hPostNo hc
    · exact hUONo hc
    · exact hGuiNo hc

/-- C5 (witness): the id generator occurs exactly once in the concrete trace
built from `sBase`. -/
theorem wIdGenerator_once_before_pose_witness :
    WellFormedWorkers sBase
    ∧ configureThreadManager sBase = .ok (trBase, sBaseAfter)
    ∧ (trBase.flatMap AddCall.workers).count Worker.wIdGenerator = 1 :=
  ⟨by decide, by decide,
    (wIdGenerator_once_before_pose sBase trBase sBaseAfter
      (by decide) (by decide)).1⟩

/-- C7 (counterexample): with multi-threading disabled on `sSingle`,
`configureThreadManager` does not pass thread id 0 to every add call: the user
output stage (configured with `workerOnNewThread = false`) receives
`4294967295`. -/
theorem singleThread_nonzero_threadId :
    sSingle.mMultiThreadEnabled = false
    ∧ (ctmTrace sSingle).map allThreadIdsZero = .ok false
    ∧ (ctmTrace sSingle).map (fun tr => tr.map AddCall.threadId)
        = .ok [0, 0, 0, 4294967295, 0] := by
  decide

/-- C7 (amended): after `disableMultiThreading()`, `threadIdPP` never modifies
`mThreadId`, and every add call issued by a subsequent
`configureThreadManager` passes thread id 0 **except** a user output worker
configured with `workerOnNewThread = false`, which is passed the wrapped id
`2^32 - 1`; only the first parallel pose replica is added in this mode. -/
theorem disableMultiThreading_collapses_ids (s : WrapperState) (tr : List AddCall)
    (s2 : WrapperState) (hmt : s.mMultiThreadEnabled = false)
    (h : configureThreadManager s = .ok (tr, s2)) :
    ((threadIdPP s).1 = s.mThreadId ∧ (threadIdPP s).2 = s)
    ∧ (∀ a ∈ tr, a.threadId = 0
        ∨ (a.threadId = UM - 1 ∧ a.workers = s.mUserOutputWs
           ∧ s.mUserOutputWsOnNewThread = false))
    ∧ (∃ pre poseA rest, tr = pre ++ poseA ++ rest
        ∧ poseA.map AddCall.workers
            = (if s.spWPoses = [] then [] else [s.spWPoses.headI])) := by
  obtain ⟨wIn, wOut, a1, t1, q1, qo1, a2, t2, q2, qo2, a3, t3, q3, qo3,
    a4, t4, q4, qo4, a5, t5, q5, qo5, hIn, hOut, hi, hp2, hp3, hp4, hp5, htr⟩ :=
    ctm_ok_decomp s tr s2 h
  obtain ⟨-, hq1, -⟩ := ingressPhase_ok_shape _ _ _ _ _ _ _ _ _ _ _ _ hi
  rw [hmt] at hi hp2 hp3
  obtain ⟨hz1, ht1z⟩ := ingressPhase_ids_st _ _ _ _ _ _ _ _ _ _ _ hi
  have hq2p := posePhase_queues s.spWPoses false t1 q1 qo1 hq1
  rw [hp2] at hq2p
  dsimp only at hq2p
  have hq2w : qo2 = q2 + 1 := hq2p.2
  have hp2s := posePhase_st_spec s.spWPoses t1 q1 qo1 hq1
  rw [hp2] at hp2s
  dsimp only at hp2s
  obtain ⟨hw2, hz2, ht2z, -, -⟩ := hp2s
  have hp3s := postPhase_st_spec s.mPostProcessingWs s.mUserPostProcessingWs
    s.mOutputWs s.mUserPostProcessingWsOnNewThread t2 q2 qo2 hq2w
  rw [hp3] at hp3s
  dsimp only at hp3s
  obtain ⟨hz3, ht3z, -, -, -⟩ := hp3s
  have ht30 : t3 = 0 := by omega
  obtain ⟨ha4eq, ht4eq, hq4eq, hqo4eq⟩ := userOutputPhase_adds s.mUserOutputWs
    s.mUserOutputWsOnNewThread s.mMultiThreadEnabled t3 q3 qo3
  rw [hp4] at ha4eq ht4eq hq4eq hqo4eq
  dsimp only at ha4eq ht4eq hq4eq hqo4eq
  rw [hmt] at ht4eq
  have ht40 : t4 = 0 := by
    rw [ht4eq]
    split_ifs <;> simp [tpp_false, ht30]
  obtain ⟨ha5eq, -, -⟩ := guiPhase_adds s.spWGui s.mMultiThreadEnabled t4 q4 qo4
  rw [hp5] at ha5eq
  dsimp only at ha5eq
  subst htr
  refine ⟨by simp [threadIdPP, hmt], ?_, ?_⟩
  · intro a ha
    simp only [List.mem_append] at ha
    rcases ha with (((ha | ha) | ha) | ha) | ha
    · exact Or.inl (hz1 a ha)
    · exact Or.inl (by rw [hz2 a ha]; omega)
    · exact Or.inl (by rw [hz3 a ha]; omega)
    · rw [ha4eq] at ha
      split_ifs at ha with hu1 hu2
      · cases ha
      · simp only [List.mem_cons, List.not_mem_nil, or_false] at ha
        subst ha
        exact Or.inl (by dsimp only; omega)
      · simp only [List.mem_cons, List.not_mem_nil, or_false] at ha
        subst ha
        refine Or.inr ⟨?_, rfl, by simpa using hu2⟩
        dsimp only
        rw [ht30]
        have hlt : UM - 1 < UM := by norm_num [UM]
        simpa using Nat.mod_eq_of_lt hlt
    · rw [ha5eq] at ha
      rcases hg : s.spWGui with _ | g <;> simp only [hg] at ha
      · cases ha
      · simp only [List.mem_cons, List.not_mem_nil, or_false] at ha
        subst ha
        exact Or.inl (by dsimp only; omega)
  · refine ⟨a1, a2, a3 ++ a4 ++ a5, by simp [List.append_assoc], ?_⟩
    rw [hw2]

/-- C7 (witness): the amended statement instantiated on `sSingle` and its
concrete trace. -/
theorem disableMultiThreading_collapses_ids_witness :
    sSingle.mMultiThreadEnabled = false
    ∧ configureThreadManager sSingle = .ok (trSingle, sSingleAfter)
    ∧ ((threadIdPP sSingle).1 = sSingle.mThreadId
        ∧ (threadIdPP sSingle).2 = sSingle) :=
  ⟨by decide, by decide,
    (disableMultiThreading_collapses_ids sSingle trSingle sSingleAfter
      (by decide) (by decide)).1⟩

/-- C10: with multi-threading disabled and a user output worker configured
with `workerOnNewThread = false`, `configureThreadManager` computes that
stage thread id as `mThreadId - 1` in `unsigned int` arithmetic with
`mThreadId = 0`, i.e. `2^32 - 1 = 4294967295`: the trace is some zero-id
stages, then the user output stage with id 4294967295, then (if a GUI is
configured) the GUI stage with id 0 — so the user output stage id is larger
than every other stage id, including the GUI stage added after it. -/
theorem userOutput_sameThread_wraparound (s : WrapperState) (tr : List AddCall)
    (s2 : WrapperState) (hmt : s.mMultiThreadEnabled = false)
    (hne : s.mUserOutputWs ≠ []) (hnew : s.mUserOutputWsOnNewThread = false)
    (h : configureThreadManager s = .ok (tr, s2)) :
    ∃ pre q guiA,
      tr = pre ++ ⟨4294967295, s.mUserOutputWs, q, q + 1⟩ :: guiA
      ∧ (∀ a ∈ pre, a.threadId = 0)
      ∧ guiA = (match s.spWGui with
          | some g => [⟨0, [g], q + 1, q + 2⟩]
          | none => [])
      ∧ (∀ a ∈ pre, a.threadId < 4294967295)
      ∧ (∀ a ∈ guiA, a.threadId < 4294967295) := by
  obtain ⟨wIn, wOut, a1, t1, q1, qo1, a2, t2, q2, qo2, a3, t3, q3, qo3,
    a4, t4, q4, qo4, a5, t5, q5, qo5, hIn, hOut, hi, hp2, hp3, hp4, hp5, htr⟩ :=
    ctm_ok_decomp s tr s2 h
  obtain ⟨-, hq1, -⟩ := ingressPhase_ok_shape _ _ _ _ _ _ _ _ _ _ _ _ hi
  rw [hmt] at hi hp2 hp3
  obtain ⟨hz1, ht1z⟩ := ingressPhase_ids_st _ _ _ _ _ _ _ _ _ _ _ hi
  have hq2p := posePhase_queues s.spWPoses false t1 q1 qo1 hq1
  rw [hp2] at hq2p
  dsimp only at hq2p
  have hq2w : qo2 = q2 + 1 := hq2p.2
  have hp2s := posePhase_st_spec s.spWPoses t1 q1 qo1 hq1
  rw [hp2] at hp2s
  dsimp only at hp2s
  obtain ⟨-, hz2, ht2z, -, -⟩ := hp2s
  have hp3s := postPhase_st_spec s.mPostProcessingWs s.mUserPostProcessingWs
    s.mOutputWs s.mUserPostProcessingWsOnNewThread t2 q2 qo2 hq2w
  rw [hp3] at hp3s
  dsimp only at hp3s
  obtain ⟨hz3, ht3z, -, -, -⟩ := hp3s
  have hq3p := postPhase_queues s.mPostProcessingWs s.mUserPostProcessingWs
    s.mOutputWs s.mUserPostProcessingWsOnNewThread false t2 q2 qo2 hq2w
  rw [hp3] at hq3p
  dsimp only at hq3p
  have hq3w : qo3 = q3 + 1 := hq3p.2
  have ht30 : t3 = 0 := by omega
  obtain ⟨ha4eq, ht4eq, hq4eq, hqo4eq⟩ := userOutputPhase_adds s.mUserOutputWs
    s.mUserOutputWsOnNewThread s.mMultiThreadEnabled t3 q3 qo3
  rw [hp4] at ha4eq ht4eq hq4eq hqo4eq
  dsimp only at ha4eq ht4eq hq4eq hqo4eq
  rw [hmt] at ht4eq
  have hnew2 : ¬(s.mUserOutputWsOnNewThread = true) := by simp [hnew]
  have ha4v : a4 = [⟨4294967295, s.mUserOutputWs, q3, q3 + 1⟩] := by
    rw [ha4eq, if_neg hne, if_neg hnew2, ht30, hq3w]
    have hlt : UM - 1 < UM := by norm_num [UM]
    have : (0 + (UM - 1)) % UM = 4294967295 := by
      rw [Nat.zero_add, Nat.mod_eq_of_lt hlt]
      decide
    rw [this]
  have ht40 : t4 = 0 := by
    rw [ht4eq, if_neg (by simp [hnew]), ht30]
  have hq4v : q4 = q3 + 1 := by rw [hq4eq, if_neg hne]
  have hqo4v : qo4 = q3 + 2 := by rw [hqo4eq, if_neg hne]; omega
  obtain ⟨ha5eq, -, -⟩ := guiPhase_adds s.spWGui s.mMultiThreadEnabled t4 q4 qo4
  rw [hp5] at ha5eq
  dsimp only at ha5eq
  have ha5v : a5 = (match s.spWGui with
      | some g => [⟨0, [g], q3 + 1, q3 + 2⟩]
      | none => []) := by
    rw [ha5eq, ht40, hq4v, hqo4v]
  refine ⟨a1 ++ a2 ++ a3, q3, a5, ?_, ?_, ?_, ?_, ?_⟩
  · rw [htr, ha4v]
    simp [List.append_assoc]
  · intro a ha
    simp only [List.mem_append] at ha
    rcases ha with (ha | ha) | ha
    · exact hz1 a ha
    · rw [hz2 a ha]; omega
    · rw [hz3 a ha]; omega
  · exact ha5v
  · intro a ha
    simp only [List.mem_append] at ha
    rcases ha with (ha | ha) | ha
    · rw [hz1 a ha]; omega
    · rw [hz2 a ha]; omega
    · rw [hz3 a ha]; omega
  · intro a ha
    rw [ha5v] at ha
    rcases hg : s.spWGui with _ | g <;> rw [hg] at ha
    · simp at ha
    · simp only [List.mem_cons, List.not_mem_nil, or_false] at ha
      subst ha
      dsimp only
      omega

/-- C10 (witness): the wraparound on the concrete state `sSingle` and its
concrete trace. -/
theorem userOutput_sameThread_wraparound_witness :
    sSingle.mMultiThreadEnabled = false
    ∧ sSingle.mUserOutputWs ≠ []
    ∧ sSingle.mUserOutputWsOnNewThread = false
    ∧ configureThreadManager sSingle = .ok (trSingle, sSingleAfter)
    ∧ (∃ pre q guiA,
        trSingle = pre ++ ⟨4294967295, sSingle.mUserOutputWs, q, q + 1⟩ :: guiA
        ∧ (∀ a ∈ pre, a.threadId = 0)
        ∧ guiA = (match sSingle.spWGui with
            | some g => [⟨0, [g], q + 1, q + 2⟩]
            | none => [])
        ∧ (∀ a ∈ pre, a.threadId < 4294967295)
        ∧ (∀ a ∈ guiA, a.threadId < 4294967295)) :=
  ⟨by decide, by decide, by decide, by decide,
    userOutput_sameThread_wraparound sSingle trSingle sSingleAfter
      (by decide) (by decide) (by decide) (by decide)⟩

end Op
